import Mathlib

/-!
Verification development for the host-side OpenGL multiplexer.

Shallow embedding of

* `emulator/opengl/host/libs/Translator/include/GLcommon/RangeManip.h`
* `emulator/opengl/host/libs/Translator/GLcommon/RangeManip.cpp`
* `emulator/opengl/host/libs/libOpenglRender/FrameBuffer.{h,cpp}`

Conventions.

* The `int` bounds of a `Range` are embedded as `Int`. The only arithmetic on
  them is a difference that is tested against zero or added back to the bound
  it was taken from, which gives the same bounds with and without reduction
  modulo `2 ^ 32`.
* The `int32_t` reference count of a colorbuffer is embedded as an `Int` that is
  reduced into `[-2 ^ 31, 2 ^ 31)` after every increment and decrement
  (`wrapInt32`): the value the two's-complement machine stores.
* A call whose behaviour the C++ standard leaves undefined because an iterator
  of one container is passed to another container is embedded as a call without
  a result (`none`).
* `uint32_t` (`HandleType`) is embedded as `Nat` with explicit reduction modulo
  `2 ^ 32` where the source increments it.
* `std::set<Range>` is embedded as the list of its elements in iteration order;
  `std::map<HandleType, T>` as the list of its (key, value) entries in iteration
  order.
-/

/-! ## Range (RangeManip.h) -/

/-- The `std::pair<int,int>` underlying `Range`: `first` is the start, `second`
the (exclusive) end. -/
structure Range where
  first : Int
  second : Int
deriving DecidableEq, Repr

/-- Constructor `Range(int start, int size) : pair(start, start+size)`. -/
def Range.ofStartSize (start size : Int) : Range := ⟨start, start + size⟩

/-- Member `getStart()`. -/
def Range.getStart (self : Range) : Int := self.first

/-- Member `getEnd()`. -/
def Range.getEnd (self : Range) : Int := self.second

/-- Member `getSize()`. -/
def Range.getSize (self : Range) : Int := self.second - self.first

/-- Member `setRange(start, size)`: overwrites the receiver, whose old value is
therefore not an argument here. -/
def Range.setRange (start size : Int) : Range := Range.ofStartSize start size

/-- Lexicographic `operator<` of `std::pair`:
`a.first < b.first || (!(b.first < a.first) && a.second < b.second)`. -/
def Range.lt (a b : Range) : Prop :=
  a.first < b.first ∨ (¬ b.first < a.first ∧ a.second < b.second)

instance Range.instLT : LT Range := ⟨Range.lt⟩

instance Range.decLt (a b : Range) : Decidable (a < b) :=
  inferInstanceAs (Decidable (a.first < b.first ∨ (¬ b.first < a.first ∧ a.second < b.second)))

/-- Method `Range::rangeIntersection(r, rOut)` (RangeManip.cpp 20-30). The
out-parameter is threaded: the result is the returned flag together with the
value of `rOut` after the call. -/
def Range.rangeIntersection (self r rOut : Range) : Bool × Range :=
  if self.getStart > r.getEnd ∨ r.getStart > self.getEnd then (false, rOut)
  else
    let max_start := if self.getStart > r.getStart then self.getStart else r.getStart
    let min_end := if self.getEnd < r.getEnd then self.getEnd else r.getEnd
    let size := min_end - max_start
    if size ≠ 0 then (true, Range.setRange max_start (min_end - max_start))
    else (false, rOut)

/-- Method `Range::rangeUnion(r, rOut)` (RangeManip.cpp 32-42): both exits
after the first test return `false`. -/
def Range.rangeUnion (self r rOut : Range) : Bool × Range :=
  if self.getStart > r.getEnd ∨ r.getStart > self.getEnd then (false, rOut)
  else
    let min_start := if self.getStart < r.getStart then self.getStart else r.getStart
    let max_end := if self.getEnd > r.getEnd then self.getEnd else r.getEnd
    let size := max_end - min_start
    if size ≠ 0 then (false, Range.setRange min_start (max_end - min_start))
    else (false, rOut)

/-- The integer points of the half-open interval `[first, second)`. -/
def Range.contains (self : Range) (p : Int) : Prop := self.first ≤ p ∧ p < self.second

instance Range.decContains (self : Range) (p : Int) : Decidable (self.contains p) :=
  inferInstanceAs (Decidable (self.first ≤ p ∧ p < self.second))

/-! ## RangeList (RangeManip.h, RangeManip.cpp) -/

/-- The class `RangeList : public std::set<Range>`, as the list of its elements
in iteration order. -/
abbrev RangeList := List Range

/-- The representation invariant of `std::set<Range>`: iteration order is
strictly increasing for `operator<`. -/
def RangeList.WF (l : RangeList) : Prop := l.Pairwise (fun a b => a < b)

instance RangeList.decWF (l : RangeList) : Decidable (RangeList.WF l) :=
  inferInstanceAs (Decidable (l.Pairwise (fun a b => a < b)))

/-- The unique-key insertion `std::set<Range>::insert(x)`: `x` is placed before
the first larger element and dropped when an equivalent element is present.
The overload taking a position hint, `insert(hint, x)`, is the same insertion
when the hint is an iterator of the receiver, as in
`newList.insert(newList.end(), x)` of RangeManip.cpp 78, 97 and 102: a valid
hint affects only where the search starts. -/
def RangeList.insert (x : Range) : RangeList → RangeList
  | [] => [x]
  | y :: ys =>
    if x < y then x :: y :: ys
    else if y < x then y :: RangeList.insert x ys
    else y :: ys

/-- Method `addRange(r) { insert(r); }`. -/
def RangeList.addRange (self : RangeList) (r : Range) : RangeList := RangeList.insert r self

/-- The hinted insertion `std::set<Range>::insert(hint, x)`, by the container
the hint belongs to. The C++ standard defines the call only for a hint that is
an iterator of the receiver (`hintOfReceiver = true`): then it is the
unique-key insertion of `x`. For an iterator of another container the
behaviour is undefined: the call has no result (`none`); what a given standard
library does with such a hint is outside the embedding. -/
def RangeList.insertHint (hintOfReceiver : Bool) (x : Range) (self : RangeList) :
    Option RangeList :=
  if hintOfReceiver then some (RangeList.insert x self) else none

/-- The split of an intersected element in `RangeList::delRange`
(RangeManip.cpp 65-75): `newList` after the remainders of `it` outside
`intersection` have been inserted. Both insertions are
`newList.insert(it, Range(...))` where `it` is the loop iterator of `*this`,
a container other than the local `newList`: the hint is never an iterator of
the receiver, so each insertion that is executed is
`RangeList.insertHint false`. -/
def RangeList.delRangeSplit (it intersection : Range) (newList : RangeList) :
    Option RangeList :=
  if intersection ≠ it then
    let newList1 :=
      if it.getStart ≠ intersection.getStart then
        RangeList.insertHint false
          (Range.ofStartSize it.getStart (intersection.getStart - it.getStart)) newList
      else some newList
    match newList1 with
    | none => none
    | some newList =>
      if it.getEnd ≠ intersection.getEnd then
        RangeList.insertHint false
          (Range.ofStartSize intersection.getEnd (it.getEnd - intersection.getEnd)) newList
      else some newList
  else some newList

/-- Body of the `for` loop of `RangeList::delRange` (RangeManip.cpp 61-80),
run over the remaining elements of `*this`. The state is the local
`intersection`, the local `newList` and the out-parameter `deleted`; the
result is `none` once an insertion without defined behaviour has been
executed. As long as none has been executed, `*this` is not written and the
loop visits its elements in order. -/
def RangeList.delRangeLoop (r : Range) :
    List Range → Range → RangeList → RangeList → Option (Range × RangeList × RangeList)
  | [], intersection, newList, deleted => some (intersection, newList, deleted)
  | it :: rest, intersection, newList, deleted =>
    let res := r.rangeIntersection it intersection
    let intersection := res.2
    if res.1 then
      match RangeList.delRangeSplit it intersection newList with
      | none => none
      | some newList =>
        RangeList.delRangeLoop r rest intersection newList
          (RangeList.addRange deleted intersection)
    else
      RangeList.delRangeLoop r rest intersection (RangeList.insert it newList) deleted

/-- Method `RangeList::delRange(r, deleted)` (RangeManip.cpp 52-83). The result
is the receiver after the call paired with `deleted` after the call, or `none`
when the call executes an insertion without defined behaviour. The local
`intersection` starts as the default-constructed pair `(0, 0)`; the iterator
obtained from `lower_bound(r)` is shadowed by the loop variable and unused. -/
def RangeList.delRange (self : RangeList) (r : Range) (deleted : RangeList) :
    Option (RangeList × RangeList) :=
  if r.getSize = 0 then some (self, deleted)
  else
    match RangeList.delRangeLoop r self ⟨0, 0⟩ [] deleted with
    | none => none
    | some out => some (out.2.1, out.2.2)

/-- Method `RangeList::delRanges(rl, deleted)` (RangeManip.cpp 44-50); `none`
when one of the `delRange` calls has no defined result. -/
def RangeList.delRanges (self : RangeList) :
    List Range → RangeList → Option (RangeList × RangeList)
  | [], deleted => some (self, deleted)
  | it :: rest, deleted =>
    match RangeList.delRange self it deleted with
    | none => none
    | some out => RangeList.delRanges out.1 rest out.2

/-- The `while` loop of `RangeList::merge` (RangeManip.cpp 93-102) together
with the final insertion of `current`; the state is `current` and `newList`. -/
def RangeList.mergeLoop : List Range → Range → RangeList → RangeList
  | [], current, newList => RangeList.insert current newList
  | it :: rest, current, newList =>
    if current.getEnd ≥ it.getStart then
      RangeList.mergeLoop rest ⟨current.first, max current.second it.second⟩ newList
    else
      RangeList.mergeLoop rest it (RangeList.insert current newList)

/-- Method `RangeList::merge()` (RangeManip.cpp 85-105): the receiver after the
call. -/
def RangeList.merge (self : RangeList) : RangeList :=
  match self with
  | [] => []
  | it :: rest => RangeList.mergeLoop rest it []

/-- The integer points covered by some range of the list. -/
def RangeList.covers (l : RangeList) (p : Int) : Prop := ∃ x ∈ l, x.contains p

instance RangeList.decCovers (l : RangeList) (p : Int) : Decidable (RangeList.covers l p) :=
  inferInstanceAs (Decidable (∃ x ∈ l, x.contains p))

/-! ## FrameBuffer (FrameBuffer.h, FrameBuffer.cpp) -/

/-- The handle type, `typedef uint32_t HandleType`. -/
abbrev HandleType := Nat

/-- A `std::map<HandleType, T>`, as the list of its entries in iteration
order. -/
abbrev HandleMap (α : Type) := List (HandleType × α)

/-- The lookup `m.find(k)`; `none` stands for `m.end()`. -/
def HandleMap.find {α : Type} (k : HandleType) : HandleMap α → Option α
  | [] => none
  | e :: m => if k = e.1 then some e.2 else HandleMap.find k m

/-- The assignment `m[k] = v`: overwrites the entry of `k` or adds one, keeping
key order. -/
def HandleMap.insert {α : Type} (k : HandleType) (v : α) : HandleMap α → HandleMap α
  | [] => [(k, v)]
  | e :: m =>
    if k < e.1 then (k, v) :: e :: m
    else if k = e.1 then (k, v) :: m
    else e :: HandleMap.insert k v m

/-- The removal `m.erase(k)`. -/
def HandleMap.erase {α : Type} (k : HandleType) : HandleMap α → HandleMap α
  | [] => []
  | e :: m => if e.1 = k then HandleMap.erase k m else e :: HandleMap.erase k m

/-- Modelled from the spec: the class `RenderContext` (RenderContext.h is not
among the sources). The registry reads its native context (`getEGLContext()`),
its API version (`isGL2()`) and its decoder state (`decoderContextData()`);
`ptr` is the object identity held by a `RenderContextPtr`. -/
structure RenderContext where
  ptr : Nat
  eglContext : Nat
  isGL2 : Bool
  decoderContextData : Nat
deriving DecidableEq, Repr

/-- Modelled from the spec: the class `WindowSurface` (WindowSurface.h is not
among the sources). The registry reads its native surface (`getEGLSurface()`);
`ptr` is the object identity held by a `WindowSurfacePtr`. -/
structure WindowSurface where
  ptr : Nat
  eglSurface : Nat
deriving DecidableEq, Repr

/-- Modelled from the spec: the class `ColorBuffer` (ColorBuffer.h is not among
the sources); `ptr` is the object identity held by a `ColorBufferPtr`. -/
structure ColorBuffer where
  ptr : Nat
deriving DecidableEq, Repr

/-- The value an `int32_t` object holds after the mathematical result `x` of an
increment or decrement has been stored in it: the representative of `x` modulo
`2 ^ 32` in `[-2 ^ 31, 2 ^ 31)`. -/
def wrapInt32 (x : Int) : Int := (x + 2147483648) % 4294967296 - 2147483648

/-- The struct `ColorBufferRef` (FrameBuffer.h 29-32). The field
`int32_t refcount` holds an `Int` of `[-2 ^ 31, 2 ^ 31)`: every write of the
embedding stores either the constant `1` (`createColorBuffer`) or a value
reduced by `wrapInt32` (`openColorBuffer`, `closeColorBuffer`). -/
structure ColorBufferRef where
  cb : ColorBuffer
  refcount : Int
deriving DecidableEq, Repr

/-- The registry state: `FrameBuffer::s_nextHandle` and the data members of
`FrameBuffer` that the handle, binding and present operations read or write
(FrameBuffer.h 117-146). Table values are the objects themselves: entries are
stored only after the `Ptr() != NULL` tests of the create operations. Native
handles are `Option Nat`, `none` being `EGL_NO_SURFACE`, `EGL_NO_CONTEXT` or
`NULL`. -/
structure FrameBuffer where
  s_nextHandle : HandleType
  m_contexts : HandleMap RenderContext
  m_windows : HandleMap WindowSurface
  m_colorbuffers : HandleMap ColorBufferRef
  m_eglSurface : Option Nat
  m_eglContext : Option Nat
  m_pbufSurface : Option Nat
  m_pbufContext : Option Nat
  m_prevContext : Option Nat
  m_prevReadSurf : Option Nat
  m_prevDrawSurf : Option Nat
  m_subWin : Option Nat
  m_lastPostedColorBuffer : HandleType
  m_eglContextInitialized : Bool
deriving DecidableEq, Repr

/-- The registry right after construction (FrameBuffer.cpp 27, 376-408), before
the native objects of `initialize` exist. -/
def FrameBuffer.empty : FrameBuffer where
  s_nextHandle := 0
  m_contexts := []
  m_windows := []
  m_colorbuffers := []
  m_eglSurface := none
  m_eglContext := none
  m_pbufSurface := none
  m_pbufContext := none
  m_prevContext := none
  m_prevReadSurf := none
  m_prevDrawSurf := none
  m_subWin := none
  m_lastPostedColorBuffer := 0
  m_eglContextInitialized := false

/-- The `do ... while` loop of `FrameBuffer::genHandle` (FrameBuffer.cpp
503-507) run for at most `fuel` iterations from counter value `s_nextHandle`;
`++s_nextHandle` wraps modulo `2 ^ 32`. The result is the accepted `id`, which
is also the new counter value; `none` when the fuel runs out. -/
def FrameBuffer.genHandleLoop (m_contexts : HandleMap RenderContext)
    (m_windows : HandleMap WindowSurface) : Nat → HandleType → Option HandleType
  | 0, _ => none
  | fuel + 1, s_nextHandle =>
    let id := (s_nextHandle + 1) % 2 ^ 32
    if id = 0 ∨ (HandleMap.find id m_contexts).isSome ∨ (HandleMap.find id m_windows).isSome then
      FrameBuffer.genHandleLoop m_contexts m_windows fuel id
    else some id

/-- Method `FrameBuffer::genHandle()` (FrameBuffer.cpp 500-510). The counter
takes every 32-bit value within `2 ^ 32` iterations, so the loop either exits
within that many iterations or never; `none` is the latter. -/
def FrameBuffer.genHandle (fb : FrameBuffer) : Option (HandleType × FrameBuffer) :=
  match FrameBuffer.genHandleLoop fb.m_contexts fb.m_windows (2 ^ 32) fb.s_nextHandle with
  | none => none
  | some id => some (id, { fb with s_nextHandle := id })

/-- Method `FrameBuffer::createColorBuffer` (FrameBuffer.cpp 512-525). `cb` is
what `ColorBuffer::create(p_width, p_height, p_internalFormat)` returned
(`none` for a null pointer). The result is the returned handle and the new
registry, `none` when `genHandle` does not return. -/
def FrameBuffer.createColorBuffer (fb : FrameBuffer) (cb : Option ColorBuffer) :
    Option (HandleType × FrameBuffer) :=
  match cb with
  | none => some (0, fb)
  | some cb =>
    match fb.genHandle with
    | none => none
    | some (ret, fb1) =>
      some (ret, { fb1 with m_colorbuffers := HandleMap.insert ret ⟨cb, 1⟩ fb1.m_colorbuffers })

/-- Method `FrameBuffer::createRenderContext` (FrameBuffer.cpp 527-548).
`rctx` is what `RenderContext::create(p_config, share, p_isGL2)` returned. -/
def FrameBuffer.createRenderContext (fb : FrameBuffer) (p_share : HandleType)
    (rctx : Option RenderContext) : Option (HandleType × FrameBuffer) :=
  if p_share ≠ 0 ∧ (HandleMap.find p_share fb.m_contexts).isNone then some (0, fb)
  else
    match rctx with
    | none => some (0, fb)
    | some rctx =>
      match fb.genHandle with
      | none => none
      | some (ret, fb1) =>
        some (ret, { fb1 with m_contexts := HandleMap.insert ret rctx fb1.m_contexts })

/-- Method `FrameBuffer::createWindowSurface` (FrameBuffer.cpp 550-562). `win`
is what `WindowSurface::create(p_config, p_width, p_height)` returned. -/
def FrameBuffer.createWindowSurface (fb : FrameBuffer) (win : Option WindowSurface) :
    Option (HandleType × FrameBuffer) :=
  match win with
  | none => some (0, fb)
  | some win =>
    match fb.genHandle with
    | none => none
    | some (ret, fb1) =>
      some (ret, { fb1 with m_windows := HandleMap.insert ret win fb1.m_windows })

/-- Method `FrameBuffer::DestroyRenderContext` (FrameBuffer.cpp 564-568). -/
def FrameBuffer.DestroyRenderContext (fb : FrameBuffer) (p_context : HandleType) : FrameBuffer :=
  { fb with m_contexts := HandleMap.erase p_context fb.m_contexts }

/-- Method `FrameBuffer::DestroyWindowSurface` (FrameBuffer.cpp 570-574). -/
def FrameBuffer.DestroyWindowSurface (fb : FrameBuffer) (p_surface : HandleType) : FrameBuffer :=
  { fb with m_windows := HandleMap.erase p_surface fb.m_windows }

/-- Method `FrameBuffer::openColorBuffer` (FrameBuffer.cpp 576-585). The
statement `(*c).second.refcount++` increments an `int32_t`: the stored value is
`wrapInt32 (refcount + 1)`, which is `-2 ^ 31` when the count was
`2 ^ 31 - 1`. -/
def FrameBuffer.openColorBuffer (fb : FrameBuffer) (p_colorbuffer : HandleType) : FrameBuffer :=
  match HandleMap.find p_colorbuffer fb.m_colorbuffers with
  | none => fb
  | some c =>
    { fb with m_colorbuffers :=
        HandleMap.insert p_colorbuffer ⟨c.cb, wrapInt32 (c.refcount + 1)⟩ fb.m_colorbuffers }

/-- Method `FrameBuffer::closeColorBuffer` (FrameBuffer.cpp 587-598). The test
`--(*c).second.refcount == 0` decrements an `int32_t` and compares the stored
value, `wrapInt32 (refcount - 1)`, with zero. -/
def FrameBuffer.closeColorBuffer (fb : FrameBuffer) (p_colorbuffer : HandleType) : FrameBuffer :=
  match HandleMap.find p_colorbuffer fb.m_colorbuffers with
  | none => fb
  | some c =>
    if wrapInt32 (c.refcount - 1) = 0 then
      { fb with m_colorbuffers := HandleMap.erase p_colorbuffer fb.m_colorbuffers }
    else
      { fb with m_colorbuffers :=
          HandleMap.insert p_colorbuffer ⟨c.cb, wrapInt32 (c.refcount - 1)⟩ fb.m_colorbuffers }

/-- Modelled from the spec: the per-thread binding state `RenderThreadInfo`
(ThreadInfo.h is not among the sources): the current context, the current draw
and read surfaces, and the context-data pointer installed in each of the two
decoders (`m_glDec`, `m_gl2Dec`) by `setContextData`; `none` is a null
pointer. -/
structure RenderThreadInfo where
  currContext : Option RenderContext
  currDrawSurf : Option WindowSurface
  currReadSurf : Option WindowSurface
  m_glDec : Option Nat
  m_gl2Dec : Option Nat
deriving DecidableEq, Repr

/-- The bind modes passed to `WindowSurface::bind`. -/
inductive SurfaceBindType where
  | SURFACE_BIND_READ
  | SURFACE_BIND_DRAW
  | SURFACE_BIND_READDRAW
deriving DecidableEq, Repr

/-- The calls `bindContext` issues on its collaborators, in program order: the
native `s_egl.eglMakeCurrent(m_eglDisplay, draw, read, ctx)` and
`surface->bind(ctx, mode)` on a window surface. -/
inductive DriverCall where
  | eglMakeCurrent (draw read ctx : Option Nat)
  | bind (surface : WindowSurface) (ctx : Option RenderContext) (mode : SurfaceBindType)
deriving DecidableEq, Repr

/-- The handle validation of `FrameBuffer::bindContext` (FrameBuffer.cpp
686-718): `none` when one of the three `return false` statements is reached,
otherwise the locals `(ctx, draw, read)` at line 719. -/
def FrameBuffer.bindContextLookup (fb : FrameBuffer)
    (p_context p_drawSurface p_readSurface : HandleType) :
    Option (Option RenderContext × Option WindowSurface × Option WindowSurface) :=
  if p_context ≠ 0 ∨ p_drawSurface ≠ 0 ∨ p_readSurface ≠ 0 then
    match HandleMap.find p_context fb.m_contexts with
    | none => none
    | some ctx =>
      match HandleMap.find p_drawSurface fb.m_windows with
      | none => none
      | some draw =>
        if p_readSurface ≠ p_drawSurface then
          match HandleMap.find p_readSurface fb.m_windows with
          | none => none
          | some read => some (some ctx, some draw, some read)
        else some (some ctx, some draw, some draw)
  else some (none, none, none)

/-- The `WindowSurface::bind` calls of `FrameBuffer::bindContext`
(FrameBuffer.cpp 743-751). -/
def FrameBuffer.bindSurfaces (ctx : Option RenderContext)
    (bindDraw bindRead : Option WindowSurface) : List DriverCall :=
  match bindDraw, bindRead with
  | some d, some r =>
    if d.ptr ≠ r.ptr then
      [DriverCall.bind d ctx SurfaceBindType.SURFACE_BIND_DRAW,
       DriverCall.bind r ctx SurfaceBindType.SURFACE_BIND_READ]
    else [DriverCall.bind d ctx SurfaceBindType.SURFACE_BIND_READDRAW]
  | _, _ => []

/-- Method `FrameBuffer::bindContext` (FrameBuffer.cpp 680-768), called on the
thread whose `RenderThreadInfo` is `tinfo`. `eglMakeCurrent` is the value the
native `s_egl.eglMakeCurrent` call returns if it is reached. The result is the
returned flag, the registry and the thread state after the call, and the
collaborator calls issued. -/
def FrameBuffer.bindContext (fb : FrameBuffer) (tinfo : RenderThreadInfo) (eglMakeCurrent : Bool)
    (p_context p_drawSurface p_readSurface : HandleType) :
    Bool × FrameBuffer × RenderThreadInfo × List DriverCall :=
  match fb.bindContextLookup p_context p_drawSurface p_readSurface with
  | none => (false, fb, tinfo, [])
  | some (ctx, draw, read) =>
    let native := DriverCall.eglMakeCurrent (draw.map (fun s => s.eglSurface))
      (read.map (fun s => s.eglSurface)) (ctx.map (fun c => c.eglContext))
    if ¬ eglMakeCurrent then (false, fb, tinfo, [native])
    else
      let bindDraw := if draw.isNone ∧ read.isNone then tinfo.currDrawSurf else draw
      let bindRead := if draw.isNone ∧ read.isNone then tinfo.currReadSurf else read
      let binds := FrameBuffer.bindSurfaces ctx bindDraw bindRead
      let tinfo1 : RenderThreadInfo :=
        { tinfo with currContext := ctx, currDrawSurf := draw, currReadSurf := read }
      let tinfo2 : RenderThreadInfo :=
        match ctx with
        | some c =>
          if c.isGL2 then { tinfo1 with m_gl2Dec := some c.decoderContextData }
          else { tinfo1 with m_glDec := some c.decoderContextData }
        | none => { tinfo1 with m_glDec := none, m_gl2Dec := none }
      (true, fb, tinfo2, native :: binds)

/-- One call on the handle tables of the registry, with the outcome of the
object constructor it wraps. -/
inductive RegistryCall where
  | createRenderContext (p_share : HandleType) (rctx : Option RenderContext)
  | createWindowSurface (win : Option WindowSurface)
  | createColorBuffer (cb : Option ColorBuffer)
  | DestroyRenderContext (p_context : HandleType)
  | DestroyWindowSurface (p_surface : HandleType)
  | openColorBuffer (p_colorbuffer : HandleType)
  | closeColorBuffer (p_colorbuffer : HandleType)
deriving DecidableEq, Repr

/-- The registry after one call; `none` when the call does not return. -/
def FrameBuffer.call (fb : FrameBuffer) : RegistryCall → Option FrameBuffer
  | RegistryCall.createRenderContext p_share rctx =>
    (fb.createRenderContext p_share rctx).map (fun out => out.2)
  | RegistryCall.createWindowSurface win => (fb.createWindowSurface win).map (fun out => out.2)
  | RegistryCall.createColorBuffer cb => (fb.createColorBuffer cb).map (fun out => out.2)
  | RegistryCall.DestroyRenderContext p_context => some (fb.DestroyRenderContext p_context)
  | RegistryCall.DestroyWindowSurface p_surface => some (fb.DestroyWindowSurface p_surface)
  | RegistryCall.openColorBuffer p_colorbuffer => some (fb.openColorBuffer p_colorbuffer)
  | RegistryCall.closeColorBuffer p_colorbuffer => some (fb.closeColorBuffer p_colorbuffer)

/-- The registry after a sequence of calls, each issued after the previous one
returned. -/
def FrameBuffer.run (fb : FrameBuffer) : List RegistryCall → Option FrameBuffer
  | [] => some fb
  | c :: cs =>
    match fb.call c with
    | none => none
    | some fb1 => FrameBuffer.run fb1 cs

/-- The handle invariant of the registry: no handle is a key of both the
context table and the surface table, and `0` is a key of neither. -/
def FrameBuffer.HandlesDisjoint (fb : FrameBuffer) : Prop :=
  (∀ h : HandleType, ¬ ((HandleMap.find h fb.m_contexts).isSome ∧
      (HandleMap.find h fb.m_windows).isSome)) ∧
    HandleMap.find 0 fb.m_contexts = none ∧ HandleMap.find 0 fb.m_windows = none

/-- A short call sequence on the empty registry: create a context, create a
surface, destroy an absent context. -/
def FrameBuffer.sampleCalls : List RegistryCall :=
  [RegistryCall.createRenderContext 0 (some ⟨100, 200, false, 300⟩),
   RegistryCall.createWindowSurface (some ⟨101, 201⟩),
   RegistryCall.DestroyRenderContext 7]

/-- The registry after `FrameBuffer.sampleCalls`: context handle 1, surface
handle 2. -/
def FrameBuffer.sampleState : FrameBuffer :=
  { FrameBuffer.empty with
    s_nextHandle := 2
    m_contexts := [(1, ⟨100, 200, false, 300⟩)]
    m_windows := [(2, ⟨101, 201⟩)] }

/-- The change a call makes to the reference count of colorbuffer `h`: `+1` for
`openColorBuffer(h)`, `-1` for `closeColorBuffer(h)`. -/
def RegistryCall.refDelta (h : HandleType) : RegistryCall → Int
  | RegistryCall.openColorBuffer k => if k = h then 1 else 0
  | RegistryCall.closeColorBuffer k => if k = h then -1 else 0
  | _ => 0

/-- The count `1 + (number of opens of h) - (number of closes of h)` of a call
sequence. -/
def RegistryCall.refBalance (h : HandleType) (calls : List RegistryCall) : Int :=
  1 + (calls.map (RegistryCall.refDelta h)).sum

/-- The registry right after `createColorBuffer` on the empty registry returned
handle 1. -/
def FrameBuffer.sampleColorBufferState : FrameBuffer :=
  { FrameBuffer.empty with s_nextHandle := 1, m_colorbuffers := [(1, ⟨⟨64⟩, 1⟩)] }

/-- One open followed by two closes of handle 1. -/
def FrameBuffer.sampleColorBufferCalls : List RegistryCall :=
  [RegistryCall.openColorBuffer 1, RegistryCall.closeColorBuffer 1, RegistryCall.closeColorBuffer 1]

/-- A registry with context handle 1 and surface handles 2 and 3. -/
def FrameBuffer.sampleBindState : FrameBuffer :=
  { FrameBuffer.empty with
    s_nextHandle := 3
    m_contexts := [(1, ⟨100, 200, false, 300⟩)]
    m_windows := [(2, ⟨101, 201⟩), (3, ⟨102, 202⟩)] }

/-- The thread state of a thread that has not bound anything. -/
def RenderThreadInfo.unbound : RenderThreadInfo :=
  ⟨none, none, none, none, none⟩

/-- A bind immediately followed by an unbind (`bindContext(0, 0, 0)`) on the
same thread, the native make-current succeeding in both: the flags the two
calls return, the thread state after the unbind, and the collaborator calls
the unbind issues. -/
def FrameBuffer.bindThenUnbind (fb : FrameBuffer) (tinfo : RenderThreadInfo)
    (c d r : HandleType) : Bool × Bool × RenderThreadInfo × List DriverCall :=
  let b := fb.bindContext tinfo true c d r
  let u := b.2.1.bindContext b.2.2.1 true 0 0 0
  (b.1, u.1, u.2.2.1, u.2.2.2)

/-- The state of a thread of the sample registry after its successful
`bindContext(1, 2, 2)`: it records surface 2 for drawing and reading. -/
def RenderThreadInfo.sampleBound : RenderThreadInfo :=
  (FrameBuffer.sampleBindState.bindContext RenderThreadInfo.unbound true 1 2 2).2.2.1

/-- The values of `current` that the loop of `RangeList::merge` inserts into
`newList`, in the order it inserts them (the final insertion at line 102
included), when run over `rest` from `current`. -/
def RangeList.mergeEmit : List Range → Range → List Range
  | [], current => [current]
  | it :: rest, current =>
    if current.getEnd ≥ it.getStart then
      RangeList.mergeEmit rest ⟨current.first, max current.second it.second⟩
    else current :: RangeList.mergeEmit rest it

/-- The call sequence `createWindowSurface; DestroyWindowSurface(next)`
repeated `k` times, where `next`, `next + 1`, ... are the handles the
successive creations return. -/
def FrameBuffer.churnCalls (win : WindowSurface) : Nat → HandleType → List RegistryCall
  | 0, _ => []
  | k + 1, next =>
    RegistryCall.createWindowSurface (some win) :: RegistryCall.DestroyWindowSurface next ::
      FrameBuffer.churnCalls win k (next + 1)

/-- A call sequence on the empty registry that creates colorbuffer `A` (handle
1) and then creates and destroys `2 ^ 32 - 2` window surfaces, which uses up
the handles `2 .. 2 ^ 32 - 1`. -/
def FrameBuffer.wrapCalls : List RegistryCall :=
  RegistryCall.createColorBuffer (some ⟨64⟩) :: FrameBuffer.churnCalls ⟨101, 201⟩ (2 ^ 32 - 2) 2

/-- The registry after `FrameBuffer.wrapCalls`: the counter stands at
`2 ^ 32 - 1` and colorbuffer `A` is live under handle 1 with refcount 1. -/
def FrameBuffer.sampleWrappedState : FrameBuffer :=
  { FrameBuffer.empty with s_nextHandle := 4294967295, m_colorbuffers := [(1, ⟨⟨64⟩, 1⟩)] }

/-- Method `FrameBuffer::setWindowSurfaceColorBuffer` (FrameBuffer.cpp
615-635). Modelled from the spec: the effect of
`WindowSurface::setColorBuffer` (WindowSurface.cpp is not among the sources),
which records the colorbuffer as the one attached to the surface ("owns
zero-or-one attached ColorBuffer reference"). `attached` maps a surface object
(by its `ptr`) to its attached colorbuffer. The registry itself is not
written. The result is the returned flag and the attachments after the
call. -/
def FrameBuffer.setWindowSurfaceColorBuffer (fb : FrameBuffer) (attached : HandleMap ColorBuffer)
    (p_surface p_colorbuffer : HandleType) : Bool × HandleMap ColorBuffer :=
  match HandleMap.find p_surface fb.m_windows with
  | none => (false, attached)
  | some w =>
    match HandleMap.find p_colorbuffer fb.m_colorbuffers with
    | none => (false, attached)
    | some c => (true, HandleMap.insert w.ptr c.cb attached)

/-- The registry together with the colorbuffer attachments of the window
surface objects. -/
structure SurfaceState where
  fb : FrameBuffer
  attached : HandleMap ColorBuffer
deriving DecidableEq, Repr

/-- The state before any call: empty registry, nothing attached. -/
def SurfaceState.empty : SurfaceState := ⟨FrameBuffer.empty, []⟩

/-- A call on the handle tables or a `setWindowSurfaceColorBuffer` call. -/
inductive SurfaceCall where
  | registry (c : RegistryCall)
  | setWindowSurfaceColorBuffer (p_surface p_colorbuffer : HandleType)
deriving DecidableEq, Repr

/-- The state after one call; `none` when the call does not return. -/
def SurfaceState.call (st : SurfaceState) : SurfaceCall → Option SurfaceState
  | SurfaceCall.registry c => (st.fb.call c).map (fun fb1 => ⟨fb1, st.attached⟩)
  | SurfaceCall.setWindowSurfaceColorBuffer p_surface p_colorbuffer =>
    some ⟨st.fb, (st.fb.setWindowSurfaceColorBuffer st.attached p_surface p_colorbuffer).2⟩

/-- The state after a sequence of calls. -/
def SurfaceState.run (st : SurfaceState) : List SurfaceCall → Option SurfaceState
  | [] => some st
  | c :: cs =>
    match st.call c with
    | none => none
    | some st1 => SurfaceState.run st1 cs

/-- Every entry of the colorbuffer table has a reference count of at least 1
and at most `n`. -/
def FrameBuffer.RefcountsWithin (fb : FrameBuffer) (n : Int) : Prop :=
  ∀ (k : HandleType) (ref : ColorBufferRef),
    HandleMap.find k fb.m_colorbuffers = some ref → 1 ≤ ref.refcount ∧ ref.refcount ≤ n

/-- Whether a call is an `openColorBuffer` call. -/
def SurfaceCall.isOpen : SurfaceCall → Bool
  | SurfaceCall.registry (RegistryCall.openColorBuffer _) => true
  | _ => false

/-- The number of `openColorBuffer` calls of a call sequence. -/
def SurfaceCall.opens (calls : List SurfaceCall) : Nat := calls.countP SurfaceCall.isOpen

/-- Create a surface (handle 1) and a colorbuffer (handle 2), attach the
colorbuffer to the surface, then close the colorbuffer. -/
def SurfaceState.sampleCalls : List SurfaceCall :=
  [SurfaceCall.registry (RegistryCall.createWindowSurface (some ⟨101, 201⟩)),
   SurfaceCall.registry (RegistryCall.createColorBuffer (some ⟨64⟩)),
   SurfaceCall.setWindowSurfaceColorBuffer 1 2,
   SurfaceCall.registry (RegistryCall.closeColorBuffer 2)]

/-- The state after `SurfaceState.sampleCalls`: surface 1 is in the surface
table with colorbuffer object 64 attached; the colorbuffer table is empty. -/
def SurfaceState.sampleState : SurfaceState :=
  ⟨{ FrameBuffer.empty with s_nextHandle := 2, m_windows := [(1, ⟨101, 201⟩)] },
    [(101, ⟨64⟩)]⟩

/-- The state after the first two calls of `SurfaceState.sampleCalls`: surface
1 and colorbuffer 2 (refcount 1) exist, nothing is attached. -/
def SurfaceState.sampleCreated : SurfaceState :=
  ⟨{ FrameBuffer.empty with
      s_nextHandle := 2
      m_windows := [(1, ⟨101, 201⟩)]
      m_colorbuffers := [(2, ⟨⟨64⟩, 1⟩)] }, []⟩

/-! ## Native current binding -/

/-- Modelled from the spec: the native driver's current binding of the calling
thread (the driver is an external collaborator): the context and the draw and
read surfaces that `eglGetCurrentContext`, `eglGetCurrentSurface(EGL_DRAW)` and
`eglGetCurrentSurface(EGL_READ)` report; `none` is `EGL_NO_CONTEXT` or
`EGL_NO_SURFACE`. -/
structure EglCurrent where
  context : Option Nat
  draw : Option Nat
  read : Option Nat
deriving DecidableEq, Repr

/-- Modelled from the spec: the native call
`eglMakeCurrent(display, draw, read, context)`, to which
`internal_eglMakeCurrent` (internalEglImp.cpp 27-29, declared in
egl_internal.h 5) and `s_egl.eglMakeCurrent` forward their arguments in this
order. `ok` is the value the driver returns: on success the surfaces and the
context passed become current, on failure the binding is unchanged. -/
def EglCurrent.eglMakeCurrent (cur : EglCurrent) (ok : Bool) (draw read context : Option Nat) :
    EglCurrent :=
  if ok then ⟨context, draw, read⟩ else cur

/-! ## EglContext (EglContext.cpp) -/

/-- The enumeration `GLESVersion`. -/
inductive GLESVersion where
  | GLES_1_1
  | GLES_2_0
deriving DecidableEq, Repr

/-- The data members of `EglContext` that its destructor reads (EglContext.cpp
41-56): the display, the native context, the client-API context, the API
version, the name manager (`none` for a null pointer) and the handle. -/
structure EglContext where
  m_dpy : Nat
  m_native : Nat
  m_glesContext : Nat
  m_version : GLESVersion
  m_mngr : Option Nat
  m_hndl : Nat
deriving DecidableEq, Repr

/-- The calls the destructor of `EglContext` issues on its collaborators, in
program order. `eglMakeCurrent` carries the arguments of
`internal_eglMakeCurrent` in parameter order (draw, read, context);
`destroyShareGroup` is the call that passes the `doDestroyObject` callback. -/
inductive TeardownCall where
  | eglGetCurrentContext
  | eglGetCurrentSurfaceRead
  | eglGetCurrentSurfaceDraw
  | eglChooseConfig (ver : GLESVersion)
  | eglCreatePbufferSurface
  | getSurface (surface : Option Nat)
  | osMakeCurrent (draw read : Nat) (native : Nat)
  | destroyShareGroup (native : Nat) (ver : GLESVersion)
  | deleteShareGroup (native : Nat)
  | eglMakeCurrent (draw read context : Option Nat)
  | destroyContext (native : Nat)
  | deleteGLESContext (glesContext : Nat)
deriving DecidableEq, Repr

/-- What the collaborators answer during one run of the destructor: the
surface `internal_eglCreatePbufferSurface` returns, the object
`m_dpy->getSurface(g_fakeSurface)` returns (`none` for a null pointer), and the
results of `EglOS::makeCurrent` and of the restoring
`internal_eglMakeCurrent`. -/
structure TeardownEnv where
  createdSurface : Option Nat
  surfPtr : Option Nat
  osMakeCurrentOk : Bool
  restoreOk : Bool
deriving DecidableEq, Repr

/-- Destructor `EglContext::~EglContext()` (EglContext.cpp 58-134).
`g_fakeSurface` is the file-level static of line 29 and `cur` the binding the
`internal_eglGetCurrent...` calls report. The result is `g_fakeSurface` and
the binding after the destructor and the collaborator calls it issued.
`EglOS::makeCurrent` (line 110) acts on the OS layer and is recorded as a call;
the binding reported by the EGL layer is written by `internal_eglMakeCurrent`
(line 121), whose arguments are passed here exactly as written there. -/
def EglContext.destructor (self : EglContext) (g_fakeSurface : Option Nat) (cur : EglCurrent)
    (env : TeardownEnv) : Option Nat × EglCurrent × List TeardownCall :=
  let prevContext := cur.context
  let prevReadSurf := cur.read
  let prevDrawSurf := cur.draw
  let snapshot := [TeardownCall.eglGetCurrentContext, TeardownCall.eglGetCurrentSurfaceRead,
    TeardownCall.eglGetCurrentSurfaceDraw]
  let fake : Option Nat × List TeardownCall :=
    match g_fakeSurface with
    | none =>
      (env.createdSurface,
        [TeardownCall.eglChooseConfig self.m_version, TeardownCall.eglCreatePbufferSurface])
    | some s => (some s, [])
  let g_fakeSurface1 := fake.1
  let switch : List TeardownCall :=
    match env.surfPtr with
    | none => []
    | some p => [TeardownCall.osMakeCurrent p p self.m_native]
  let share : List TeardownCall :=
    match self.m_mngr with
    | some _ =>
      [TeardownCall.destroyShareGroup self.m_native self.m_version,
       TeardownCall.deleteShareGroup self.m_native]
    | none => []
  let cur1 := cur.eglMakeCurrent env.restoreOk prevReadSurf prevDrawSurf prevContext
  (g_fakeSurface1, cur1,
    snapshot ++ fake.2 ++ [TeardownCall.getSurface g_fakeSurface1] ++ switch ++ share ++
      [TeardownCall.eglMakeCurrent prevReadSurf prevDrawSurf prevContext,
       TeardownCall.destroyContext self.m_native,
       TeardownCall.deleteGLESContext self.m_glesContext])

/-! ## Present pipeline (FrameBuffer.cpp 770-926) -/

/-- The GL entry points `post` calls through `s_gl`; their arguments are not
recorded. -/
inductive GLFunction where
  | glMatrixMode
  | glPushMatrix
  | glPopMatrix
  | glBindFramebufferOES
  | glViewport
  | glReadPixels
  | glTranslatef
  | glRotatef
  | glClear
deriving DecidableEq, Repr

/-- The calls the present pipeline issues on its collaborators, in program
order. `eglMakeCurrent` carries the draw surface, the read surface and the
context passed to `s_egl.eglMakeCurrent`. -/
inductive PresentCall where
  | eglGetCurrentContext
  | eglGetCurrentSurfaceRead
  | eglGetCurrentSurfaceDraw
  | eglMakeCurrent (draw read context : Option Nat)
  | initGLState
  | gl (f : GLFunction)
  | colorBufferPost (cb : ColorBuffer)
  | displayLogo
  | displayWindowHighlight
  | onPost
  | eglSwapBuffers (surface : Option Nat)
deriving DecidableEq, Repr

/-- What `post` reads besides the registry state: the data members
`m_onPost` (a callback is registered), `m_textLogo` (non-zero) and
`m_windowHighlight`, which `post` does not write, and the values its
collaborators return: `eglMakeCurrent` inside `bindSubwin_locked`, the
`ColorBuffer::post()` calls at lines 863 and 888, and `eglMakeCurrent` inside
`unbind_locked`. -/
structure PostEnv where
  m_onPost : Bool
  m_textLogo : Bool
  m_windowHighlight : Bool
  bindOk : Bool
  postOffscreen : Bool
  postOnscreen : Bool
  unbindOk : Bool
deriving DecidableEq, Repr

/-- The three reads of the native binding at the start of `bind_locked` and
`bindSubwin_locked`. -/
def PresentCall.snapshot : List PresentCall :=
  [PresentCall.eglGetCurrentContext, PresentCall.eglGetCurrentSurfaceRead,
   PresentCall.eglGetCurrentSurfaceDraw]

/-- Method `FrameBuffer::bind_locked` (FrameBuffer.cpp 773-789). `ok` is the
value `s_egl.eglMakeCurrent` returns. The result is the returned flag, the
registry and the native binding after the call, and the calls issued. -/
def FrameBuffer.bind_locked (fb : FrameBuffer) (cur : EglCurrent) (ok : Bool) :
    Bool × FrameBuffer × EglCurrent × List PresentCall :=
  let prevContext := cur.context
  let prevReadSurf := cur.read
  let prevDrawSurf := cur.draw
  let calls := PresentCall.snapshot ++
    [PresentCall.eglMakeCurrent fb.m_pbufSurface fb.m_pbufSurface fb.m_pbufContext]
  let cur1 := cur.eglMakeCurrent ok fb.m_pbufSurface fb.m_pbufSurface fb.m_pbufContext
  if ¬ ok then (false, fb, cur1, calls)
  else
    (true,
      { fb with m_prevContext := prevContext, m_prevReadSurf := prevReadSurf,
                m_prevDrawSurf := prevDrawSurf },
      cur1, calls)

/-- Method `FrameBuffer::bindSubwin_locked` (FrameBuffer.cpp 791-815). -/
def FrameBuffer.bindSubwin_locked (fb : FrameBuffer) (cur : EglCurrent) (ok : Bool) :
    Bool × FrameBuffer × EglCurrent × List PresentCall :=
  let prevContext := cur.context
  let prevReadSurf := cur.read
  let prevDrawSurf := cur.draw
  let calls := PresentCall.snapshot ++
    [PresentCall.eglMakeCurrent fb.m_eglSurface fb.m_eglSurface fb.m_eglContext]
  let cur1 := cur.eglMakeCurrent ok fb.m_eglSurface fb.m_eglSurface fb.m_eglContext
  if ¬ ok then (false, fb, cur1, calls)
  else
    let init := if ¬ fb.m_eglContextInitialized then [PresentCall.initGLState] else []
    (true,
      { fb with m_eglContextInitialized := true, m_prevContext := prevContext,
                m_prevReadSurf := prevReadSurf, m_prevDrawSurf := prevDrawSurf },
      cur1, calls ++ init)

/-- Method `FrameBuffer::unbind_locked` (FrameBuffer.cpp 817-828). -/
def FrameBuffer.unbind_locked (fb : FrameBuffer) (cur : EglCurrent) (ok : Bool) :
    Bool × FrameBuffer × EglCurrent × List PresentCall :=
  let calls := [PresentCall.eglMakeCurrent fb.m_prevDrawSurf fb.m_prevReadSurf fb.m_prevContext]
  let cur1 := cur.eglMakeCurrent ok fb.m_prevDrawSurf fb.m_prevReadSurf fb.m_prevContext
  if ¬ ok then (false, fb, cur1, calls)
  else
    (true, { fb with m_prevContext := none, m_prevReadSurf := none, m_prevDrawSurf := none },
      cur1, calls)

/-- The calls of `post` between the successful `bindSubwin_locked` and
`unbind_locked` (FrameBuffer.cpp 853-910) for the colorbuffer `cb`, together
with the final value of `ret`. -/
def FrameBuffer.postDraw (fb : FrameBuffer) (env : PostEnv) (cb : ColorBuffer) :
    Bool × List PresentCall :=
  let offscreen : List PresentCall :=
    if env.m_onPost then
      [PresentCall.gl GLFunction.glMatrixMode, PresentCall.gl GLFunction.glPushMatrix,
       PresentCall.initGLState, PresentCall.gl GLFunction.glBindFramebufferOES,
       PresentCall.gl GLFunction.glViewport, PresentCall.colorBufferPost cb] ++
      (if env.m_textLogo then [PresentCall.displayLogo] else []) ++
      (if env.postOffscreen then [PresentCall.gl GLFunction.glReadPixels, PresentCall.onPost]
        else []) ++
      [PresentCall.gl GLFunction.glBindFramebufferOES, PresentCall.gl GLFunction.glViewport,
       PresentCall.gl GLFunction.glMatrixMode, PresentCall.gl GLFunction.glPopMatrix,
       PresentCall.gl GLFunction.glMatrixMode]
    else []
  let onscreen : List PresentCall :=
    [PresentCall.gl GLFunction.glPushMatrix, PresentCall.gl GLFunction.glTranslatef,
     PresentCall.gl GLFunction.glRotatef, PresentCall.gl GLFunction.glClear,
     PresentCall.colorBufferPost cb, PresentCall.gl GLFunction.glRotatef] ++
    (if env.m_textLogo then [PresentCall.displayLogo] else []) ++
    [PresentCall.gl GLFunction.glPopMatrix]
  let highlight : List PresentCall :=
    if env.m_windowHighlight then
      [PresentCall.gl GLFunction.glMatrixMode, PresentCall.gl GLFunction.glPushMatrix,
       PresentCall.initGLState, PresentCall.displayWindowHighlight,
       PresentCall.gl GLFunction.glMatrixMode, PresentCall.gl GLFunction.glPopMatrix,
       PresentCall.gl GLFunction.glMatrixMode]
    else []
  let ret := env.postOnscreen
  let swap := if ret then [PresentCall.eglSwapBuffers fb.m_eglSurface] else []
  (ret, offscreen ++ onscreen ++ highlight ++ swap)

/-- Method `FrameBuffer::post` (FrameBuffer.cpp 830-918). The result is the
returned flag, the registry and the native binding after the call, and the
collaborator calls issued. The lock operations are not part of the
embedding. -/
def FrameBuffer.post (fb : FrameBuffer) (cur : EglCurrent) (env : PostEnv)
    (p_colorbuffer : HandleType) : Bool × FrameBuffer × EglCurrent × List PresentCall :=
  match HandleMap.find p_colorbuffer fb.m_colorbuffers with
  | none => (false, fb, cur, [])
  | some c =>
    let fb1 := { fb with m_lastPostedColorBuffer := p_colorbuffer }
    if fb1.m_subWin.isNone then (false, fb1, cur, [])
    else
      let b := fb1.bindSubwin_locked cur env.bindOk
      if ¬ b.1 then (false, b.2.1, b.2.2.1, b.2.2.2)
      else
        let d := FrameBuffer.postDraw b.2.1 env c.cb
        let u := b.2.1.unbind_locked b.2.2.1 env.unbindOk
        (d.1, u.2.1, u.2.2.1, b.2.2.2 ++ d.2 ++ u.2.2.2)

/-- Method `FrameBuffer::repost` (FrameBuffer.cpp 920-926). -/
def FrameBuffer.repost (fb : FrameBuffer) (cur : EglCurrent) (env : PostEnv) :
    Bool × FrameBuffer × EglCurrent × List PresentCall :=
  if fb.m_lastPostedColorBuffer ≠ 0 then fb.post cur env fb.m_lastPostedColorBuffer
  else (false, fb, cur, [])

/-- A native binding with nothing current. -/
def EglCurrent.unbound : EglCurrent := ⟨none, none, none⟩

/-- Sample answers for one `post`: no callback, no logo, no highlight, every
collaborator call succeeds. -/
def PostEnv.sample : PostEnv := ⟨false, false, false, true, true, true, true⟩

/-- The calls that lead from the empty registry to
`FrameBuffer.sampleBindState`: create a context and two window surfaces. -/
def FrameBuffer.sampleBindCalls : List RegistryCall :=
  [RegistryCall.createRenderContext 0 (some ⟨100, 200, false, 300⟩),
   RegistryCall.createWindowSurface (some ⟨101, 201⟩),
   RegistryCall.createWindowSurface (some ⟨102, 202⟩)]

/-- A registry with colorbuffer 1, a subwindow and its native surface and
context. -/
def FrameBuffer.samplePresentState : FrameBuffer :=
  { FrameBuffer.sampleColorBufferState with
    m_subWin := some 7
    m_eglSurface := some 8
    m_eglContext := some 9 }

/-- A native binding with context 1, draw surface 2 and read surface 3. -/
def EglCurrent.sample : EglCurrent := ⟨some 1, some 2, some 3⟩

/-- A GLES 2.0 context with a name manager. -/
def EglContext.sample : EglContext := ⟨10, 20, 30, GLESVersion.GLES_2_0, some 40, 1⟩

/-! ## Colorbuffer and surface operations by handle (FrameBuffer.cpp 600-678) -/

/-- The calls these operations issue on the object a handle resolves to. -/
inductive ObjectCall where
  | flushColorBuffer (surface : WindowSurface)
  | subUpdate (cb : ColorBuffer)
  | bindToTexture (cb : ColorBuffer)
  | bindToRenderbuffer (cb : ColorBuffer)
deriving DecidableEq, Repr

/-- Method `FrameBuffer::flushWindowSurfaceColorBuffer` (FrameBuffer.cpp
600-613): the returned flag, the registry after the call and the calls
issued. -/
def FrameBuffer.flushWindowSurfaceColorBuffer (fb : FrameBuffer) (p_surface : HandleType) :
    Bool × FrameBuffer × List ObjectCall :=
  match HandleMap.find p_surface fb.m_windows with
  | none => (false, fb, [])
  | some w => (true, fb, [ObjectCall.flushColorBuffer w])

/-- Method `FrameBuffer::updateColorBuffer` (FrameBuffer.cpp 637-652). The
rectangle, format, type and pixel arguments are only forwarded to
`ColorBuffer::subUpdate`. -/
def FrameBuffer.updateColorBuffer (fb : FrameBuffer) (p_colorbuffer : HandleType) :
    Bool × FrameBuffer × List ObjectCall :=
  match HandleMap.find p_colorbuffer fb.m_colorbuffers with
  | none => (false, fb, [])
  | some c => (true, fb, [ObjectCall.subUpdate c.cb])

/-- Method `FrameBuffer::bindColorBufferToTexture` (FrameBuffer.cpp 654-665).
`bindToTexture` is the value `ColorBuffer::bindToTexture()` returns if it is
called. -/
def FrameBuffer.bindColorBufferToTexture (fb : FrameBuffer) (bindToTexture : Bool)
    (p_colorbuffer : HandleType) : Bool × FrameBuffer × List ObjectCall :=
  match HandleMap.find p_colorbuffer fb.m_colorbuffers with
  | none => (false, fb, [])
  | some c => (bindToTexture, fb, [ObjectCall.bindToTexture c.cb])

/-- Method `FrameBuffer::bindColorBufferToRenderbuffer` (FrameBuffer.cpp
667-678). `bindToRenderbuffer` is the value `ColorBuffer::bindToRenderbuffer()`
returns if it is called. -/
def FrameBuffer.bindColorBufferToRenderbuffer (fb : FrameBuffer) (bindToRenderbuffer : Bool)
    (p_colorbuffer : HandleType) : Bool × FrameBuffer × List ObjectCall :=
  match HandleMap.find p_colorbuffer fb.m_colorbuffers with
  | none => (false, fb, [])
  | some c => (bindToRenderbuffer, fb, [ObjectCall.bindToRenderbuffer c.cb])

/-- The exit test of the loop of `genHandle`: `id` is non-zero and a key of
neither the context table nor the surface table. -/
def FrameBuffer.handleFree (fb : FrameBuffer) (id : HandleType) : Prop :=
  ¬ (id = 0 ∨ (HandleMap.find id fb.m_contexts).isSome ∨ (HandleMap.find id fb.m_windows).isSome)

instance FrameBuffer.decHandleFree (fb : FrameBuffer) (id : HandleType) :
    Decidable (fb.handleFree id) :=
  inferInstanceAs (Decidable (¬ (id = 0 ∨ (HandleMap.find id fb.m_contexts).isSome ∨
    (HandleMap.find id fb.m_windows).isSome)))

/-! # Theorems -/

/-! ## Lemmas on handle maps and handle generation -/

theorem HandleMap.find_insert {α : Type} (k j : HandleType) (v : α) (m : HandleMap α) :
    HandleMap.find j (HandleMap.insert k v m) = if j = k then some v else HandleMap.find j m := by
  induction m with
  | nil => simp [HandleMap.insert, HandleMap.find]
  | cons e m ih =>
    unfold HandleMap.insert
    by_cases h1 : k < e.1
    · simp [h1, HandleMap.find]
    · by_cases h2 : k = e.1
      · subst h2
        by_cases h3 : j = e.1 <;> simp [HandleMap.find, h3]
      · simp only [h1, h2, if_false, HandleMap.find, ih]
        by_cases h3 : j = e.1
        · have : j ≠ k := fun h => h2 (h ▸ h3)
          simp [h3, this, Ne.symm h2]
        · simp [h3]

theorem HandleMap.find_erase {α : Type} (k j : HandleType) (m : HandleMap α) :
    HandleMap.find j (HandleMap.erase k m) = if j = k then none else HandleMap.find j m := by
  induction m with
  | nil => simp [HandleMap.erase, HandleMap.find]
  | cons e m ih =>
    unfold HandleMap.erase
    by_cases h1 : e.1 = k
    · by_cases h2 : j = k
      · subst h2
        simpa [h1] using ih
      · have : j ≠ e.1 := fun h => h2 (h.trans h1)
        simp [h1, ih, h2, HandleMap.find, this]
    · by_cases h2 : j = e.1
      · have : j ≠ k := fun h => h1 (h2 ▸ h)
        simp [h1, HandleMap.find, h2, this]
      · simp [h1, HandleMap.find, h2, ih]

theorem FrameBuffer.genHandleLoop_spec (cs : HandleMap RenderContext) (ws : HandleMap WindowSurface)
    (fuel : Nat) (n id : HandleType) (h : FrameBuffer.genHandleLoop cs ws fuel n = some id) :
    id ≠ 0 ∧ HandleMap.find id cs = none ∧ HandleMap.find id ws = none := by
  induction fuel generalizing n with
  | zero => simp [FrameBuffer.genHandleLoop] at h
  | succ fuel ih =>
    unfold FrameBuffer.genHandleLoop at h
    simp only at h
    split at h
    · exact ih _ h
    · rename_i hc
      simp only [not_or, Option.isSome_iff_ne_none, ne_eq, not_not] at hc
      cases h
      exact ⟨hc.1, hc.2.1, hc.2.2⟩

theorem FrameBuffer.genHandle_spec (fb fb1 : FrameBuffer) (id : HandleType)
    (h : fb.genHandle = some (id, fb1)) :
    id ≠ 0 ∧ HandleMap.find id fb.m_contexts = none ∧ HandleMap.find id fb.m_windows = none ∧
      fb1 = { fb with s_nextHandle := id } := by
  unfold FrameBuffer.genHandle at h
  split at h
  · cases h
  · rename_i id1 hl
    cases h
    have := FrameBuffer.genHandleLoop_spec _ _ _ _ _ hl
    exact ⟨this.1, this.2.1, this.2.2, rfl⟩

theorem FrameBuffer.HandlesDisjoint_insert_context (fb fb1 : FrameBuffer) (id : HandleType)
    (rctx : RenderContext) (hinv : fb.HandlesDisjoint) (hg : fb.genHandle = some (id, fb1)) :
    FrameBuffer.HandlesDisjoint
      { fb1 with m_contexts := HandleMap.insert id rctx fb1.m_contexts } := by
  obtain ⟨hid, _, hw, rfl⟩ := FrameBuffer.genHandle_spec fb fb1 id hg
  refine ⟨fun h => ?_, ?_, hinv.2.2⟩
  · by_cases hh : h = id
    · subst hh; simp [hw]
    · simpa [HandleMap.find_insert, hh] using hinv.1 h
  · simp [HandleMap.find_insert, Ne.symm hid, hinv.2.1]

theorem FrameBuffer.HandlesDisjoint_insert_window (fb fb1 : FrameBuffer) (id : HandleType)
    (win : WindowSurface) (hinv : fb.HandlesDisjoint) (hg : fb.genHandle = some (id, fb1)) :
    FrameBuffer.HandlesDisjoint
      { fb1 with m_windows := HandleMap.insert id win fb1.m_windows } := by
  obtain ⟨hid, hc, _, rfl⟩ := FrameBuffer.genHandle_spec fb fb1 id hg
  refine ⟨fun h => ?_, hinv.2.1, ?_⟩
  · by_cases hh : h = id
    · subst hh; simp [hc]
    · simpa [HandleMap.find_insert, hh] using hinv.1 h
  · simp [HandleMap.find_insert, Ne.symm hid, hinv.2.2]

theorem FrameBuffer.HandlesDisjoint_of_tables (fb fb1 : FrameBuffer) (hinv : fb.HandlesDisjoint)
    (hc : fb1.m_contexts = fb.m_contexts) (hw : fb1.m_windows = fb.m_windows) :
    fb1.HandlesDisjoint := by
  unfold FrameBuffer.HandlesDisjoint at hinv ⊢
  rw [hc, hw]; exact hinv

theorem FrameBuffer.createRenderContext_some (fb fb1 : FrameBuffer) (p_share ret : HandleType)
    (rctx : Option RenderContext) (h : fb.createRenderContext p_share rctx = some (ret, fb1)) :
    (ret = 0 ∧ fb1 = fb) ∨ ∃ r fb2, rctx = some r ∧ fb.genHandle = some (ret, fb2) ∧
      fb1 = { fb2 with m_contexts := HandleMap.insert ret r fb2.m_contexts } := by
  unfold FrameBuffer.createRenderContext at h
  split at h
  · cases h; exact Or.inl ⟨rfl, rfl⟩
  · cases rctx with
    | none => cases h; exact Or.inl ⟨rfl, rfl⟩
    | some r =>
      simp only at h
      cases hg : fb.genHandle with
      | none => simp [hg] at h
      | some p =>
        obtain ⟨id, fb2⟩ := p
        simp only [hg] at h
        cases h
        exact Or.inr ⟨r, fb2, rfl, rfl, rfl⟩

theorem FrameBuffer.createWindowSurface_some (fb fb1 : FrameBuffer) (ret : HandleType)
    (win : Option WindowSurface) (h : fb.createWindowSurface win = some (ret, fb1)) :
    (ret = 0 ∧ fb1 = fb) ∨ ∃ w fb2, win = some w ∧ fb.genHandle = some (ret, fb2) ∧
      fb1 = { fb2 with m_windows := HandleMap.insert ret w fb2.m_windows } := by
  unfold FrameBuffer.createWindowSurface at h
  cases win with
  | none => cases h; exact Or.inl ⟨rfl, rfl⟩
  | some w =>
    simp only at h
    cases hg : fb.genHandle with
    | none => simp [hg] at h
    | some p =>
      obtain ⟨id, fb2⟩ := p
      simp only [hg] at h
      cases h
      exact Or.inr ⟨w, fb2, rfl, rfl, rfl⟩

theorem FrameBuffer.createColorBuffer_some (fb fb1 : FrameBuffer) (ret : HandleType)
    (cb : Option ColorBuffer) (h : fb.createColorBuffer cb = some (ret, fb1)) :
    (cb = none ∧ ret = 0 ∧ fb1 = fb) ∨ ∃ b fb2, cb = some b ∧ fb.genHandle = some (ret, fb2) ∧
      fb1 = { fb2 with m_colorbuffers := HandleMap.insert ret ⟨b, 1⟩ fb2.m_colorbuffers } := by
  unfold FrameBuffer.createColorBuffer at h
  cases cb with
  | none => cases h; exact Or.inl ⟨rfl, rfl, rfl⟩
  | some b =>
    simp only at h
    cases hg : fb.genHandle with
    | none => simp [hg] at h
    | some p =>
      obtain ⟨id, fb2⟩ := p
      simp only [hg] at h
      cases h
      exact Or.inr ⟨b, fb2, rfl, rfl, rfl⟩

theorem FrameBuffer.HandlesDisjoint_call (fb fb1 : FrameBuffer) (c : RegistryCall)
    (hinv : fb.HandlesDisjoint) (hcall : fb.call c = some fb1) : fb1.HandlesDisjoint := by
  cases c with
  | createRenderContext p_share rctx =>
    simp only [FrameBuffer.call, Option.map_eq_some'] at hcall
    obtain ⟨⟨ret, fb2⟩, hout, rfl⟩ := hcall
    rcases FrameBuffer.createRenderContext_some fb fb2 p_share ret rctx hout with
      ⟨_, rfl⟩ | ⟨r, fb3, _, hg, rfl⟩
    · exact hinv
    · exact FrameBuffer.HandlesDisjoint_insert_context fb fb3 ret r hinv hg
  | createWindowSurface win =>
    simp only [FrameBuffer.call, Option.map_eq_some'] at hcall
    obtain ⟨⟨ret, fb2⟩, hout, rfl⟩ := hcall
    rcases FrameBuffer.createWindowSurface_some fb fb2 ret win hout with
      ⟨_, rfl⟩ | ⟨w, fb3, _, hg, rfl⟩
    · exact hinv
    · exact FrameBuffer.HandlesDisjoint_insert_window fb fb3 ret w hinv hg
  | createColorBuffer cb =>
    simp only [FrameBuffer.call, Option.map_eq_some'] at hcall
    obtain ⟨⟨ret, fb2⟩, hout, rfl⟩ := hcall
    rcases FrameBuffer.createColorBuffer_some fb fb2 ret cb hout with
      ⟨_, _, rfl⟩ | ⟨b, fb3, _, hg, rfl⟩
    · exact hinv
    · obtain ⟨_, _, _, rfl⟩ := FrameBuffer.genHandle_spec fb fb3 ret hg
      exact FrameBuffer.HandlesDisjoint_of_tables fb _ hinv rfl rfl
  | DestroyRenderContext p_context =>
    simp only [FrameBuffer.call, FrameBuffer.DestroyRenderContext, Option.some.injEq] at hcall
    subst hcall
    refine ⟨fun h => ?_, ?_, hinv.2.2⟩
    · by_cases hh : h = p_context
      · simp [HandleMap.find_erase, hh]
      · simpa [HandleMap.find_erase, hh] using hinv.1 h
    · simp [HandleMap.find_erase, hinv.2.1]
  | DestroyWindowSurface p_surface =>
    simp only [FrameBuffer.call, FrameBuffer.DestroyWindowSurface, Option.some.injEq] at hcall
    subst hcall
    refine ⟨fun h => ?_, hinv.2.1, ?_⟩
    · by_cases hh : h = p_surface
      · simp [HandleMap.find_erase, hh]
      · simpa [HandleMap.find_erase, hh] using hinv.1 h
    · simp [HandleMap.find_erase, hinv.2.2]
  | openColorBuffer p_colorbuffer =>
    simp only [FrameBuffer.call, FrameBuffer.openColorBuffer, Option.some.injEq] at hcall
    subst hcall
    split
    · exact hinv
    · exact FrameBuffer.HandlesDisjoint_of_tables fb _ hinv rfl rfl
  | closeColorBuffer p_colorbuffer =>
    simp only [FrameBuffer.call, FrameBuffer.closeColorBuffer, Option.some.injEq] at hcall
    subst hcall
    split
    · exact hinv
    · split
      · exact FrameBuffer.HandlesDisjoint_of_tables fb _ hinv rfl rfl
      · exact FrameBuffer.HandlesDisjoint_of_tables fb _ hinv rfl rfl

theorem FrameBuffer.HandlesDisjoint_run (calls : List RegistryCall) (fb0 fb : FrameBuffer)
    (hinv : fb0.HandlesDisjoint) (hrun : fb0.run calls = some fb) : fb.HandlesDisjoint := by
  induction calls generalizing fb0 with
  | nil =>
    simp only [FrameBuffer.run, Option.some.injEq] at hrun
    exact hrun ▸ hinv
  | cons c cs ih =>
    unfold FrameBuffer.run at hrun
    cases hc : fb0.call c with
    | none => simp [hc] at hrun
    | some fb1 =>
      simp only [hc] at hrun
      exact ih fb1 (FrameBuffer.HandlesDisjoint_call fb0 fb1 c hinv hc) hrun

/-- C1: in every registry state reached from the empty registry by a sequence
of create, destroy, open and close calls, no handle is a key of both the
context table and the surface table, `0` is a key of neither, and every handle
`genHandle` issues in that state is non-zero and absent from both tables. -/
theorem C1_handle_uniqueness (calls : List RegistryCall) (fb : FrameBuffer)
    (hrun : FrameBuffer.empty.run calls = some fb) :
    (∀ h : HandleType, ¬ ((HandleMap.find h fb.m_contexts).isSome ∧
        (HandleMap.find h fb.m_windows).isSome)) ∧
      HandleMap.find 0 fb.m_contexts = none ∧ HandleMap.find 0 fb.m_windows = none ∧
      ∀ (id : HandleType) (fb1 : FrameBuffer), fb.genHandle = some (id, fb1) →
        id ≠ 0 ∧ HandleMap.find id fb.m_contexts = none ∧ HandleMap.find id fb.m_windows = none := by
  have hinv : fb.HandlesDisjoint :=
    FrameBuffer.HandlesDisjoint_run calls FrameBuffer.empty fb
      ⟨fun h => by simp [FrameBuffer.empty, HandleMap.find], rfl, rfl⟩ hrun
  refine ⟨hinv.1, hinv.2.1, hinv.2.2, fun id fb1 hg => ?_⟩
  have := FrameBuffer.genHandle_spec fb fb1 id hg
  exact ⟨this.1, this.2.1, this.2.2.1⟩

/-- C1 (witness): the state after creating a context and a surface and
destroying an absent context is reachable and has the stated properties. -/
theorem C1_handle_uniqueness_witness :
    FrameBuffer.empty.run FrameBuffer.sampleCalls = some FrameBuffer.sampleState ∧
    ((∀ h : HandleType, ¬ ((HandleMap.find h FrameBuffer.sampleState.m_contexts).isSome ∧
        (HandleMap.find h FrameBuffer.sampleState.m_windows).isSome)) ∧
      HandleMap.find 0 FrameBuffer.sampleState.m_contexts = none ∧
      HandleMap.find 0 FrameBuffer.sampleState.m_windows = none ∧
      ∀ (id : HandleType) (fb1 : FrameBuffer),
        FrameBuffer.sampleState.genHandle = some (id, fb1) →
          id ≠ 0 ∧ HandleMap.find id FrameBuffer.sampleState.m_contexts = none ∧
            HandleMap.find id FrameBuffer.sampleState.m_windows = none) :=
  ⟨by decide, C1_handle_uniqueness FrameBuffer.sampleCalls FrameBuffer.sampleState (by decide)⟩

/-! ## Colorbuffer reference counts -/

theorem wrapInt32_of_range (x : Int) (h1 : -2147483648 ≤ x) (h2 : x ≤ 2147483647) :
    wrapInt32 x = x := by
  unfold wrapInt32
  omega

theorem wrapInt32_add (x y : Int) : wrapInt32 (wrapInt32 x + y) = wrapInt32 (x + y) := by
  unfold wrapInt32
  omega

theorem FrameBuffer.openColorBuffer_find (fb : FrameBuffer) (h : HandleType) (c : ColorBufferRef)
    (hc : HandleMap.find h fb.m_colorbuffers = some c) :
    HandleMap.find h (fb.openColorBuffer h).m_colorbuffers =
      some ⟨c.cb, wrapInt32 (c.refcount + 1)⟩ := by
  simp [FrameBuffer.openColorBuffer, hc, HandleMap.find_insert]

theorem FrameBuffer.closeColorBuffer_find (fb : FrameBuffer) (h : HandleType) (c : ColorBufferRef)
    (hc : HandleMap.find h fb.m_colorbuffers = some c) :
    HandleMap.find h (fb.closeColorBuffer h).m_colorbuffers =
      if wrapInt32 (c.refcount - 1) = 0 then none else some ⟨c.cb, wrapInt32 (c.refcount - 1)⟩ := by
  unfold FrameBuffer.closeColorBuffer
  simp only [hc]
  split <;> simp [HandleMap.find_erase, HandleMap.find_insert]

theorem FrameBuffer.run_refcount (h : HandleType) (cb : ColorBuffer) (calls : List RegistryCall) :
    ∀ (fb : FrameBuffer) (n : Int), 1 ≤ n →
      HandleMap.find h fb.m_colorbuffers = some ⟨cb, n⟩ →
      (∀ c ∈ calls, c = RegistryCall.openColorBuffer h ∨ c = RegistryCall.closeColorBuffer h) →
      (∀ k, k < calls.length → ∀ fbk, fb.run (calls.take k) = some fbk →
        (HandleMap.find h fbk.m_colorbuffers).isSome) →
      (∀ k, k ≤ calls.length →
        n + ((calls.take k).map (RegistryCall.refDelta h)).sum ≤ 2147483647) →
      ∃ fb2, fb.run calls = some fb2 ∧
        ((HandleMap.find h fb2.m_colorbuffers =
              some ⟨cb, n + (calls.map (RegistryCall.refDelta h)).sum⟩ ∧
            1 ≤ n + (calls.map (RegistryCall.refDelta h)).sum) ∨
          (HandleMap.find h fb2.m_colorbuffers = none ∧
            n + (calls.map (RegistryCall.refDelta h)).sum = 0 ∧
            calls.getLast? = some (RegistryCall.closeColorBuffer h))) := by
  induction calls with
  | nil =>
    intro fb n hn hf _ _ _
    exact ⟨fb, rfl, Or.inl ⟨by simpa using hf, by simpa using hn⟩⟩
  | cons c cs ih =>
    intro fb n hn hf hcalls hstay hbound
    have hcs : ∀ c ∈ cs, c = RegistryCall.openColorBuffer h ∨ c = RegistryCall.closeColorBuffer h :=
      fun c hc => hcalls c (List.mem_cons_of_mem _ hc)
    have hlast : ∀ x, cs.getLast? = some x → (c :: cs).getLast? = some x := by
      intro x hx
      cases cs with
      | nil => simp at hx
      | cons d ds => simpa [List.getLast?_cons_cons] using hx
    have hn0 : n ≤ 2147483647 := by
      have := hbound 0 (Nat.zero_le _)
      simpa using this
    rcases hcalls c (List.mem_cons_self _ _) with rfl | rfl
    · -- openColorBuffer h
      have hn1 : n + 1 ≤ 2147483647 := by
        have := hbound 1 (by simp)
        simpa [RegistryCall.refDelta] using this
      have hf1 := FrameBuffer.openColorBuffer_find fb h ⟨cb, n⟩ hf
      simp only at hf1
      rw [wrapInt32_of_range (n + 1) (by omega) hn1] at hf1
      have hstay1 : ∀ k, k < cs.length → ∀ fbk, (fb.openColorBuffer h).run (cs.take k) = some fbk →
          (HandleMap.find h fbk.m_colorbuffers).isSome := by
        intro k hk fbk hr
        exact hstay (k + 1) (by simpa using hk) fbk (by simpa [FrameBuffer.run, FrameBuffer.call] using hr)
      have hbound1 : ∀ k, k ≤ cs.length →
          (n + 1) + ((cs.take k).map (RegistryCall.refDelta h)).sum ≤ 2147483647 := by
        intro k hk
        have := hbound (k + 1) (by simpa using hk)
        simp only [List.take_succ_cons, List.map_cons, List.sum_cons, RegistryCall.refDelta,
          if_true] at this
        omega
      obtain ⟨fb2, hr, hres⟩ := ih (fb.openColorBuffer h) (n + 1) (by omega) hf1 hcs hstay1 hbound1
      refine ⟨fb2, by simpa [FrameBuffer.run, FrameBuffer.call] using hr, ?_⟩
      simp only [List.map_cons, List.sum_cons, RegistryCall.refDelta, if_true]
      rcases hres with ⟨h1, h2⟩ | ⟨h1, h2, h3⟩
      · exact Or.inl ⟨by rw [h1]; congr 2; ring, by omega⟩
      · exact Or.inr ⟨h1, by omega, hlast _ h3⟩
    · -- closeColorBuffer h
      have hf1 := FrameBuffer.closeColorBuffer_find fb h ⟨cb, n⟩ hf
      simp only at hf1
      rw [wrapInt32_of_range (n - 1) (by omega) (by omega)] at hf1
      by_cases hz : n - 1 = 0
      · rw [if_pos hz] at hf1
        cases cs with
        | nil =>
          refine ⟨fb.closeColorBuffer h, by simp [FrameBuffer.run, FrameBuffer.call], Or.inr ⟨hf1, ?_, rfl⟩⟩
          simp [RegistryCall.refDelta]; omega
        | cons d ds =>
          have := hstay 1 (by simp) (fb.closeColorBuffer h) (by simp [FrameBuffer.run, FrameBuffer.call])
          simp [hf1] at this
      · rw [if_neg hz] at hf1
        have hstay1 : ∀ k, k < cs.length → ∀ fbk, (fb.closeColorBuffer h).run (cs.take k) = some fbk →
            (HandleMap.find h fbk.m_colorbuffers).isSome := by
          intro k hk fbk hr
          exact hstay (k + 1) (by simpa using hk) fbk (by simpa [FrameBuffer.run, FrameBuffer.call] using hr)
        have hbound1 : ∀ k, k ≤ cs.length →
            (n - 1) + ((cs.take k).map (RegistryCall.refDelta h)).sum ≤ 2147483647 := by
          intro k hk
          have := hbound (k + 1) (by simpa using hk)
          simp only [List.take_succ_cons, List.map_cons, List.sum_cons, RegistryCall.refDelta,
            if_true] at this
          omega
        obtain ⟨fb2, hr, hres⟩ := ih (fb.closeColorBuffer h) (n - 1) (by omega) hf1 hcs hstay1 hbound1
        refine ⟨fb2, by simpa [FrameBuffer.run, FrameBuffer.call] using hr, ?_⟩
        simp only [List.map_cons, List.sum_cons, RegistryCall.refDelta, if_true]
        rcases hres with ⟨h1, h2⟩ | ⟨h1, h2, h3⟩
        · exact Or.inl ⟨by rw [h1]; congr 2; ring, by omega⟩
        · exact Or.inr ⟨h1, by omega, hlast _ h3⟩

theorem FrameBuffer.run_opens (h : HandleType) (n : Nat) :
    ∀ (fb : FrameBuffer) (c : ColorBufferRef), HandleMap.find h fb.m_colorbuffers = some c →
      wrapInt32 c.refcount = c.refcount →
      ∃ fb2, fb.run (List.replicate n (RegistryCall.openColorBuffer h)) = some fb2 ∧
        HandleMap.find h fb2.m_colorbuffers = some ⟨c.cb, wrapInt32 (c.refcount + n)⟩ := by
  induction n with
  | zero =>
    intro fb c hc hw
    refine ⟨fb, rfl, ?_⟩
    rw [hc]
    simp [hw]
  | succ n ih =>
    intro fb c hc hw
    have hf1 := FrameBuffer.openColorBuffer_find fb h c hc
    obtain ⟨fb2, hr, hres⟩ := ih (fb.openColorBuffer h) ⟨c.cb, wrapInt32 (c.refcount + 1)⟩ hf1
      (by simpa using wrapInt32_add (c.refcount + 1) 0)
    refine ⟨fb2, by simpa [List.replicate_succ, FrameBuffer.run, FrameBuffer.call] using hr, ?_⟩
    rw [hres]
    simp only [wrapInt32_add]
    have e : c.refcount + 1 + (n : Int) = c.refcount + ((n + 1 : Nat) : Int) := by
      push_cast
      omega
    rw [e]

theorem RegistryCall.refBalance_opens (h : HandleType) (n : Nat) :
    RegistryCall.refBalance h (List.replicate n (RegistryCall.openColorBuffer h)) = 1 + n := by
  simp [RegistryCall.refBalance, RegistryCall.refDelta, List.map_replicate, List.sum_replicate]

/-- C2 (counterexample): `createColorBuffer` on the empty registry returns
handle 1 with refcount 1. Of `2 ^ 31 - 1` calls `openColorBuffer(1)` every
initial segment returns with handle 1 in the table; no close was made, so
`1 + opens - closes` is `2 ^ 31`, and the stored refcount is `-2 ^ 31`. -/
theorem C2_refcount_overflow_counterexample :
    FrameBuffer.empty.createColorBuffer (some ⟨64⟩) = some (1, FrameBuffer.sampleColorBufferState) ∧
    (∀ k, k ≤ 2147483647 → ∃ fbk,
      FrameBuffer.sampleColorBufferState.run
          ((List.replicate 2147483647 (RegistryCall.openColorBuffer 1)).take k) = some fbk ∧
        (HandleMap.find 1 fbk.m_colorbuffers).isSome) ∧
    RegistryCall.refBalance 1 (List.replicate 2147483647 (RegistryCall.openColorBuffer 1)) =
      2147483648 ∧
    ∃ fb2,
      FrameBuffer.sampleColorBufferState.run
          (List.replicate 2147483647 (RegistryCall.openColorBuffer 1)) = some fb2 ∧
        HandleMap.find 1 fb2.m_colorbuffers = some ⟨⟨64⟩, -2147483648⟩ := by
  have hfind : HandleMap.find 1 FrameBuffer.sampleColorBufferState.m_colorbuffers =
      some ⟨⟨64⟩, 1⟩ := by decide
  refine ⟨by decide, ?_, ?_, ?_⟩
  · intro k hk
    obtain ⟨fbk, hr, hres⟩ :=
      FrameBuffer.run_opens 1 k FrameBuffer.sampleColorBufferState ⟨⟨64⟩, 1⟩ hfind (by decide)
    refine ⟨fbk, ?_, by simp [hres]⟩
    rw [List.take_replicate, Nat.min_eq_left hk]
    exact hr
  · rw [RegistryCall.refBalance_opens]
    norm_num
  · obtain ⟨fb2, hr, hres⟩ :=
      FrameBuffer.run_opens 1 2147483647 FrameBuffer.sampleColorBufferState ⟨⟨64⟩, 1⟩ hfind
        (by decide)
    refine ⟨fb2, hr, ?_⟩
    rw [hres]
    simp [wrapInt32]

/-- C2 (amended): let `h` be the handle returned by a successful
`createColorBuffer`. After any sequence of `openColorBuffer(h)` /
`closeColorBuffer(h)` calls such that `h` was in the colorbuffer table after
every proper initial segment and `1 + opens - closes` was at most `2 ^ 31 - 1`
after every initial segment, the run returns and either `h` is still in the
table and its stored refcount is `1 + opens - closes` (which is at least 1), or
`h` is absent, the count is `0` and the last call was the close that brought it
there. -/
theorem C2_refcount_law_in_range (fb fb1 : FrameBuffer) (cb : ColorBuffer) (h : HandleType)
    (calls : List RegistryCall)
    (hcreate : fb.createColorBuffer (some cb) = some (h, fb1))
    (hcalls : ∀ c ∈ calls,
      c = RegistryCall.openColorBuffer h ∨ c = RegistryCall.closeColorBuffer h)
    (hstay : ∀ k, k < calls.length → ∀ fbk, fb1.run (calls.take k) = some fbk →
      (HandleMap.find h fbk.m_colorbuffers).isSome)
    (hbound : ∀ k, k ≤ calls.length → RegistryCall.refBalance h (calls.take k) ≤ 2147483647) :
    h ≠ 0 ∧ ∃ fb2, fb1.run calls = some fb2 ∧
      ((HandleMap.find h fb2.m_colorbuffers = some ⟨cb, RegistryCall.refBalance h calls⟩ ∧
          1 ≤ RegistryCall.refBalance h calls) ∨
        (HandleMap.find h fb2.m_colorbuffers = none ∧ RegistryCall.refBalance h calls = 0 ∧
          calls.getLast? = some (RegistryCall.closeColorBuffer h))) := by
  rcases FrameBuffer.createColorBuffer_some fb fb1 h (some cb) hcreate with
    ⟨hn, _, _⟩ | ⟨b, fb2, hb, hg, rfl⟩
  · cases hn
  · cases hb
    have hspec := FrameBuffer.genHandle_spec fb fb2 h hg
    refine ⟨hspec.1, ?_⟩
    exact FrameBuffer.run_refcount h cb calls _ 1 (le_refl 1)
      (by simp [HandleMap.find_insert]) hcalls hstay hbound

/-- C2 (witness): create on the empty registry returns handle 1 with refcount
1; one open and two closes keep the handle in the table until the last close,
which removes it, and the count never exceeds 2. -/
theorem C2_refcount_law_in_range_witness :
    FrameBuffer.empty.createColorBuffer (some ⟨64⟩) = some (1, FrameBuffer.sampleColorBufferState) ∧
    ((1 : HandleType) ≠ 0 ∧ ∃ fb2,
      FrameBuffer.sampleColorBufferState.run FrameBuffer.sampleColorBufferCalls = some fb2 ∧
      ((HandleMap.find 1 fb2.m_colorbuffers =
            some ⟨⟨64⟩, RegistryCall.refBalance 1 FrameBuffer.sampleColorBufferCalls⟩ ∧
          1 ≤ RegistryCall.refBalance 1 FrameBuffer.sampleColorBufferCalls) ∨
        (HandleMap.find 1 fb2.m_colorbuffers = none ∧
          RegistryCall.refBalance 1 FrameBuffer.sampleColorBufferCalls = 0 ∧
          FrameBuffer.sampleColorBufferCalls.getLast? = some (RegistryCall.closeColorBuffer 1)))) :=
  ⟨by decide,
    C2_refcount_law_in_range FrameBuffer.empty FrameBuffer.sampleColorBufferState ⟨64⟩ 1
      FrameBuffer.sampleColorBufferCalls (by decide) (by decide)
      (by
        intro k hk fbk hr
        have hk3 : k = 0 ∨ k = 1 ∨ k = 2 := by
          simp [FrameBuffer.sampleColorBufferCalls] at hk; omega
        rcases hk3 with rfl | rfl | rfl <;>
          (simp only [FrameBuffer.sampleColorBufferCalls, List.take, FrameBuffer.run,
             FrameBuffer.call] at hr
           cases hr
           decide))
      (by
        intro k hk
        have hk4 : k = 0 ∨ k = 1 ∨ k = 2 ∨ k = 3 := by
          simp [FrameBuffer.sampleColorBufferCalls] at hk; omega
        rcases hk4 with rfl | rfl | rfl | rfl <;> decide)⟩

/-! ## bindContext -/

theorem FrameBuffer.bindContextLookup_valid (fb : FrameBuffer) (c d r : HandleType)
    (ctx : RenderContext) (draw read : WindowSurface) (hnz : c ≠ 0 ∨ d ≠ 0 ∨ r ≠ 0)
    (hc : HandleMap.find c fb.m_contexts = some ctx)
    (hd : HandleMap.find d fb.m_windows = some draw)
    (hr : HandleMap.find r fb.m_windows = some read) :
    fb.bindContextLookup c d r = some (some ctx, some draw, some read) := by
  unfold FrameBuffer.bindContextLookup
  rw [if_pos hnz]
  simp only [hc, hd]
  by_cases hrd : r = d
  · subst hrd
    rw [hd] at hr
    cases hr
    simp
  · simp [hrd, hr]

/-- C3: for a handle triple that is not all zero, if the context handle is not
in the context table, or the draw handle is not in the surface table, or the
read handle differs from the draw handle and is not in the surface table, then
`bindContext` returns false, issues no collaborator call (in particular no
native make-current), and leaves the registry and the calling thread's state
unchanged, whatever the native layer would have answered. -/
theorem C3_bind_rejects_unknown_handles (fb : FrameBuffer) (tinfo : RenderThreadInfo)
    (eglMakeCurrent : Bool) (c d r : HandleType)
    (hnz : c ≠ 0 ∨ d ≠ 0 ∨ r ≠ 0)
    (hbad : HandleMap.find c fb.m_contexts = none ∨ HandleMap.find d fb.m_windows = none ∨
      (r ≠ d ∧ HandleMap.find r fb.m_windows = none)) :
    fb.bindContext tinfo eglMakeCurrent c d r = (false, fb, tinfo, []) := by
  have hl : fb.bindContextLookup c d r = none := by
    unfold FrameBuffer.bindContextLookup
    rw [if_pos hnz]
    rcases hbad with h | h | ⟨h1, h2⟩
    · simp [h]
    · cases hc : HandleMap.find c fb.m_contexts <;> simp [h]
    · cases hc : HandleMap.find c fb.m_contexts <;>
        cases hd : HandleMap.find d fb.m_windows <;> simp [h1, h2]
  simp [FrameBuffer.bindContext, hl]

/-- C3 (witness): binding context 1 to the unknown surface 9 on the sample
registry. -/
theorem C3_bind_rejects_unknown_handles_witness :
    ((1 : HandleType) ≠ 0 ∨ (9 : HandleType) ≠ 0 ∨ (9 : HandleType) ≠ 0) ∧
    (HandleMap.find 1 FrameBuffer.sampleBindState.m_contexts = none ∨
      HandleMap.find 9 FrameBuffer.sampleBindState.m_windows = none ∨
      ((9 : HandleType) ≠ 9 ∧ HandleMap.find 9 FrameBuffer.sampleBindState.m_windows = none)) ∧
    FrameBuffer.sampleBindState.bindContext RenderThreadInfo.unbound true 1 9 9 =
      (false, FrameBuffer.sampleBindState, RenderThreadInfo.unbound, []) :=
  ⟨by decide, by decide,
    C3_bind_rejects_unknown_handles FrameBuffer.sampleBindState RenderThreadInfo.unbound true 1 9 9
      (by decide) (by decide)⟩

/-- C5: for a handle triple that passes validation (all three zero, or the
context handle in the context table and both surface handles in the surface
table), if the native make-current call reports failure then `bindContext`
returns false, the registry (all three tables) and the calling thread's current
context, draw surface, read surface and decoder context data are unchanged,
and the only collaborator call issued is that make-current. -/
theorem C5_bind_native_failure (fb : FrameBuffer) (tinfo : RenderThreadInfo) (c d r : HandleType)
    (hvalid : (c = 0 ∧ d = 0 ∧ r = 0) ∨
      ((HandleMap.find c fb.m_contexts).isSome ∧ (HandleMap.find d fb.m_windows).isSome ∧
        (HandleMap.find r fb.m_windows).isSome)) :
    ∃ draw read ctx, fb.bindContext tinfo false c d r =
      (false, fb, tinfo, [DriverCall.eglMakeCurrent draw read ctx]) := by
  have hl : ∃ x, fb.bindContextLookup c d r = some x := by
    by_cases hnz : c ≠ 0 ∨ d ≠ 0 ∨ r ≠ 0
    · rcases hvalid with ⟨h1, h2, h3⟩ | ⟨h1, h2, h3⟩
      · exact absurd hnz (by simp [h1, h2, h3])
      · obtain ⟨ctx, hc⟩ := Option.isSome_iff_exists.mp h1
        obtain ⟨draw, hd⟩ := Option.isSome_iff_exists.mp h2
        obtain ⟨read, hr⟩ := Option.isSome_iff_exists.mp h3
        exact ⟨_, FrameBuffer.bindContextLookup_valid fb c d r ctx draw read hnz hc hd hr⟩
    · exact ⟨_, by unfold FrameBuffer.bindContextLookup; rw [if_neg hnz]⟩
  obtain ⟨⟨ctx, draw, read⟩, hx⟩ := hl
  exact ⟨draw.map (fun s => s.eglSurface), read.map (fun s => s.eglSurface),
    ctx.map (fun c => c.eglContext), by simp [FrameBuffer.bindContext, hx]⟩

/-- C5 (witness): a valid bind on the sample registry whose native
make-current fails. -/
theorem C5_bind_native_failure_witness :
    (((1 : HandleType) = 0 ∧ (2 : HandleType) = 0 ∧ (3 : HandleType) = 0) ∨
      ((HandleMap.find 1 FrameBuffer.sampleBindState.m_contexts).isSome ∧
        (HandleMap.find 2 FrameBuffer.sampleBindState.m_windows).isSome ∧
        (HandleMap.find 3 FrameBuffer.sampleBindState.m_windows).isSome)) ∧
    ∃ draw read ctx, FrameBuffer.sampleBindState.bindContext RenderThreadInfo.unbound false 1 2 3 =
      (false, FrameBuffer.sampleBindState, RenderThreadInfo.unbound,
        [DriverCall.eglMakeCurrent draw read ctx]) :=
  ⟨by decide,
    C5_bind_native_failure FrameBuffer.sampleBindState RenderThreadInfo.unbound 1 2 3 (by decide)⟩

/-- C4 (counterexample): a thread of the sample registry records surface 2 as
its draw and read surface (after `bindContext(1, 2, 2)`). It then binds
`(1, 3, 3)` and immediately unbinds, both successfully. Its recorded draw and
read surfaces are then null, not surface 2. -/
theorem C4_unbind_restores_counterexample :
    RenderThreadInfo.sampleBound.currDrawSurf = some ⟨101, 201⟩ ∧
    RenderThreadInfo.sampleBound.currReadSurf = some ⟨101, 201⟩ ∧
    (FrameBuffer.sampleBindState.bindThenUnbind RenderThreadInfo.sampleBound 1 3 3).1 = true ∧
    (FrameBuffer.sampleBindState.bindThenUnbind RenderThreadInfo.sampleBound 1 3 3).2.1 = true ∧
    (FrameBuffer.sampleBindState.bindThenUnbind RenderThreadInfo.sampleBound 1 3 3).2.2.1.currDrawSurf
      ≠ RenderThreadInfo.sampleBound.currDrawSurf ∧
    (FrameBuffer.sampleBindState.bindThenUnbind RenderThreadInfo.sampleBound 1 3 3).2.2.1.currReadSurf
      ≠ RenderThreadInfo.sampleBound.currReadSurf := by
  decide

/-- C4 (amended): after a successful `bindContext(c, d, r)` with valid handles
followed immediately by a successful `bindContext(0, 0, 0)` on the same thread,
the thread's recorded context, draw surface and read surface are all null and
both decoders have a null context-data pointer, whatever the thread recorded
before the bind; the unbind issues the native make-current with no surface and
no context and then re-binds the surfaces recorded by the bind (those of `d`
and `r`) to the null context. -/
theorem C4_unbind_clears (fb : FrameBuffer) (tinfo : RenderThreadInfo) (c d r : HandleType)
    (ctx : RenderContext) (draw read : WindowSurface) (hnz : c ≠ 0 ∨ d ≠ 0 ∨ r ≠ 0)
    (hc : HandleMap.find c fb.m_contexts = some ctx)
    (hd : HandleMap.find d fb.m_windows = some draw)
    (hr : HandleMap.find r fb.m_windows = some read) :
    fb.bindThenUnbind tinfo c d r =
      (true, true, RenderThreadInfo.unbound,
        DriverCall.eglMakeCurrent none none none ::
          FrameBuffer.bindSurfaces none (some draw) (some read)) := by
  have hl := FrameBuffer.bindContextLookup_valid fb c d r ctx draw read hnz hc hd hr
  have hu : fb.bindContextLookup 0 0 0 = some (none, none, none) := by
    simp [FrameBuffer.bindContextLookup]
  unfold FrameBuffer.bindThenUnbind
  cases hg : ctx.isGL2 <;>
    simp [FrameBuffer.bindContext, hl, hu, hg, RenderThreadInfo.unbound]

/-- C4 (witness): the amended statement at the bind `(1, 3, 3)` of the sample
registry on a thread that recorded surface 2. -/
theorem C4_unbind_clears_witness :
    ((1 : HandleType) ≠ 0 ∨ (3 : HandleType) ≠ 0 ∨ (3 : HandleType) ≠ 0) ∧
    HandleMap.find 1 FrameBuffer.sampleBindState.m_contexts = some ⟨100, 200, false, 300⟩ ∧
    HandleMap.find 3 FrameBuffer.sampleBindState.m_windows = some ⟨102, 202⟩ ∧
    FrameBuffer.sampleBindState.bindThenUnbind RenderThreadInfo.sampleBound 1 3 3 =
      (true, true, RenderThreadInfo.unbound,
        DriverCall.eglMakeCurrent none none none ::
          FrameBuffer.bindSurfaces none (some ⟨102, 202⟩) (some ⟨102, 202⟩)) :=
  ⟨by decide, by decide, by decide,
    C4_unbind_clears FrameBuffer.sampleBindState RenderThreadInfo.sampleBound 1 3 3
      ⟨100, 200, false, 300⟩ ⟨102, 202⟩ ⟨102, 202⟩ (by decide) (by decide) (by decide) (by decide)⟩

/-! ## Ranges and range lists -/

theorem Range.lt_iff (a b : Range) :
    a < b ↔ a.first < b.first ∨ (¬ b.first < a.first ∧ a.second < b.second) := Iff.rfl

theorem Range.lt_asymm (a b : Range) (h : a < b) : ¬ b < a := by
  rw [Range.lt_iff] at h ⊢
  omega

theorem Range.eq_of_not_lt (a b : Range) (h1 : ¬ a < b) (h2 : ¬ b < a) : a = b := by
  rw [Range.lt_iff] at h1 h2
  obtain ⟨a1, a2⟩ := a
  obtain ⟨b1, b2⟩ := b
  simp only at h1 h2
  have e1 : a1 = b1 := by omega
  have e2 : a2 = b2 := by omega
  rw [e1, e2]

theorem RangeList.mem_insert (x y : Range) (l : RangeList) :
    y ∈ RangeList.insert x l ↔ y = x ∨ y ∈ l := by
  induction l with
  | nil => simp [RangeList.insert]
  | cons z zs ih =>
    unfold RangeList.insert
    by_cases h1 : x < z
    · simp [h1]
    · by_cases h2 : z < x
      · simp only [h1, h2, if_true, if_false, List.mem_cons, ih]
        tauto
      · have : z = x := Range.eq_of_not_lt z x h2 h1
        subst this
        simp [h1]

theorem Range.rangeIntersection_eq (a b out : Range) :
    a.rangeIntersection b out =
      if a.first ≤ b.second ∧ b.first ≤ a.second ∧
          max a.first b.first ≠ min a.second b.second then
        (true, ⟨max a.first b.first, min a.second b.second⟩)
      else (false, out) := by
  unfold Range.rangeIntersection Range.getStart Range.getEnd Range.setRange Range.ofStartSize
  simp only [max_def, min_def]
  split_ifs <;>
    first
    | rfl
    | (exfalso; omega)
    | (simp only [Prod.mk.injEq, Range.mk.injEq, true_and]; omega)

theorem Range.rangeIntersection_flag (a b out : Range) :
    (a.rangeIntersection b out).1 = (a.rangeIntersection b ⟨0, 0⟩).1 := by
  simp only [Range.rangeIntersection_eq]
  split_ifs <;> rfl

theorem Range.rangeIntersection_out (a b out : Range)
    (h : (a.rangeIntersection b ⟨0, 0⟩).1 = true) :
    a.rangeIntersection b out = (true, ⟨max a.first b.first, min a.second b.second⟩) := by
  simp only [Range.rangeIntersection_eq] at h ⊢
  split_ifs at h ⊢
  rfl

theorem Range.rangeIntersection_unchanged (a b out : Range)
    (h : (a.rangeIntersection b ⟨0, 0⟩).1 = false) :
    a.rangeIntersection b out = (false, out) := by
  simp only [Range.rangeIntersection_eq] at h ⊢
  split_ifs at h ⊢
  rfl

theorem Range.rangeIntersection_true_iff (a b out : Range) :
    (a.rangeIntersection b out).1 = true ↔
      a.first ≤ b.second ∧ b.first ≤ a.second ∧
        max a.first b.first ≠ min a.second b.second := by
  rw [Range.rangeIntersection_eq]
  split_ifs with h
  · simpa using h
  · simpa using h

theorem Range.rangeIntersection_false_iff (a b out : Range) :
    (a.rangeIntersection b out).1 = false ↔
      ¬ (a.first ≤ b.second ∧ b.first ≤ a.second ∧
        max a.first b.first ≠ min a.second b.second) := by
  rw [← Range.rangeIntersection_true_iff a b out]
  simp

/-! ## delRange -/

theorem RangeList.delRangeSplit_eq (it i : Range) (nl : RangeList) :
    RangeList.delRangeSplit it i nl = if i = it then some nl else none := by
  unfold RangeList.delRangeSplit RangeList.insertHint Range.getStart Range.getEnd
  by_cases h : i = it
  · simp [h]
  · simp only [ne_eq, h, not_false_eq_true, if_true, Bool.false_eq_true, if_false]
    by_cases h1 : it.first = i.first
    · have h2 : ¬ it.second = i.second := by
        intro h2
        apply h
        cases i
        cases it
        simp_all
      simp [h1, h2]
    · simp [h1]

theorem RangeList.delRangeLoop_eq_none_iff (r : Range) (l : List Range) :
    ∀ (i : Range) (nl del : RangeList),
      RangeList.delRangeLoop r l i nl del = none ↔
        ∃ it ∈ l, (r.rangeIntersection it ⟨0, 0⟩).1 = true ∧
          (r.rangeIntersection it ⟨0, 0⟩).2 ≠ it := by
  induction l with
  | nil =>
    intro i nl del
    simp [RangeList.delRangeLoop]
  | cons it rest ih =>
    intro i nl del
    unfold RangeList.delRangeLoop
    simp only [RangeList.delRangeSplit_eq, List.exists_mem_cons_iff]
    cases hf : (r.rangeIntersection it ⟨0, 0⟩).1 with
    | false =>
      rw [Range.rangeIntersection_unchanged r it i hf]
      simp only [Bool.false_eq_true, if_false, false_and, false_or]
      exact ih _ _ _
    | true =>
      rw [Range.rangeIntersection_out r it i hf, Range.rangeIntersection_out r it ⟨0, 0⟩ hf]
      simp only [if_true, true_and]
      by_cases he : (⟨max r.first it.first, min r.second it.second⟩ : Range) = it
      · simp only [he, if_true, ne_eq, not_true_eq_false, false_or]
        exact ih _ _ _
      · simp [he]

/-- The call `delRange(r, deleted)` has no defined result exactly when `r` has
non-zero size and some range of the list is intersected by `r` without being
equal to the intersection, that is, when a remainder has to be inserted. -/
theorem RangeList.delRange_eq_none_iff (L : RangeList) (r : Range) (deleted : RangeList) :
    RangeList.delRange L r deleted = none ↔
      r.getSize ≠ 0 ∧ ∃ it ∈ L, (r.rangeIntersection it ⟨0, 0⟩).1 = true ∧
        (r.rangeIntersection it ⟨0, 0⟩).2 ≠ it := by
  unfold RangeList.delRange
  by_cases hz : r.getSize = 0
  · simp [hz]
  · simp only [hz, if_false, ne_eq, not_false_eq_true, true_and]
    rw [← RangeList.delRangeLoop_eq_none_iff r L ⟨0, 0⟩ [] deleted]
    cases RangeList.delRangeLoop r L ⟨0, 0⟩ [] deleted <;> simp

/-- Splitting the middle out of a single range always reaches the insertions
of RangeManip.cpp 68 and 73. -/
theorem RangeList.delRange_single_middle (a b c d : Int) (hac : a < c) (hcd : c < d)
    (hdb : d < b) (deleted : RangeList) :
    RangeList.delRange [⟨a, b⟩] ⟨c, d⟩ deleted = none := by
  rw [RangeList.delRange_eq_none_iff]
  refine ⟨by simp only [Range.getSize]; omega, ⟨a, b⟩, List.mem_singleton.mpr rfl, ?_⟩
  have hmax : max c a = c := max_eq_left (by omega)
  have hmin : min d b = d := min_eq_left (by omega)
  have h : c ≤ b ∧ a ≤ d ∧ c ≠ d := ⟨by omega, by omega, by omega⟩
  rw [Range.rangeIntersection_eq]
  dsimp only
  rw [hmax, hmin, if_pos h]
  refine ⟨rfl, ?_⟩
  simp only [ne_eq, Range.mk.injEq, not_and]
  omega

theorem RangeList.delRangeLoop_some (r : Range) (l : List Range) :
    ∀ (i : Range) (nl del : RangeList) (out : Range × RangeList × RangeList),
      RangeList.delRangeLoop r l i nl del = some out →
        (∀ x, x ∈ out.2.1 ↔ x ∈ nl ∨ (x ∈ l ∧ (r.rangeIntersection x ⟨0, 0⟩).1 = false)) ∧
        (∀ x, x ∈ out.2.2 ↔ x ∈ del ∨ (x ∈ l ∧ (r.rangeIntersection x ⟨0, 0⟩).1 = true)) := by
  induction l with
  | nil =>
    intro i nl del out h
    simp only [RangeList.delRangeLoop, Option.some.injEq] at h
    subst h
    simp
  | cons it rest ih =>
    intro i nl del out h
    unfold RangeList.delRangeLoop at h
    simp only [RangeList.delRangeSplit_eq] at h
    cases hf : (r.rangeIntersection it ⟨0, 0⟩).1 with
    | false =>
      rw [Range.rangeIntersection_unchanged r it i hf] at h
      simp only [Bool.false_eq_true, if_false] at h
      obtain ⟨h1, h2⟩ := ih _ _ _ _ h
      refine ⟨fun x => ?_, fun x => ?_⟩
      · rw [h1 x, RangeList.mem_insert, List.mem_cons]
        constructor
        · rintro ((rfl | hx) | ⟨hx, hxf⟩)
          · exact Or.inr ⟨Or.inl rfl, hf⟩
          · exact Or.inl hx
          · exact Or.inr ⟨Or.inr hx, hxf⟩
        · rintro (hx | ⟨rfl | hx, hxf⟩)
          · exact Or.inl (Or.inr hx)
          · exact Or.inl (Or.inl rfl)
          · exact Or.inr ⟨hx, hxf⟩
      · rw [h2 x, List.mem_cons]
        constructor
        · rintro (hx | ⟨hx, hxf⟩)
          · exact Or.inl hx
          · exact Or.inr ⟨Or.inr hx, hxf⟩
        · rintro (hx | ⟨rfl | hx, hxf⟩)
          · exact Or.inl hx
          · rw [hf] at hxf
            cases hxf
          · exact Or.inr ⟨hx, hxf⟩
    | true =>
      rw [Range.rangeIntersection_out r it i hf] at h
      simp only [if_true] at h
      by_cases he : (⟨max r.first it.first, min r.second it.second⟩ : Range) = it
      · simp only [he, if_true] at h
        obtain ⟨h1, h2⟩ := ih _ _ _ _ h
        refine ⟨fun x => ?_, fun x => ?_⟩
        · rw [h1 x, List.mem_cons]
          constructor
          · rintro (hx | ⟨hx, hxf⟩)
            · exact Or.inl hx
            · exact Or.inr ⟨Or.inr hx, hxf⟩
          · rintro (hx | ⟨rfl | hx, hxf⟩)
            · exact Or.inl hx
            · rw [hf] at hxf
              cases hxf
            · exact Or.inr ⟨hx, hxf⟩
        · rw [h2 x, RangeList.addRange, RangeList.mem_insert, List.mem_cons]
          constructor
          · rintro ((rfl | hx) | ⟨hx, hxf⟩)
            · exact Or.inr ⟨Or.inl rfl, hf⟩
            · exact Or.inl hx
            · exact Or.inr ⟨Or.inr hx, hxf⟩
          · rintro (hx | ⟨rfl | hx, hxf⟩)
            · exact Or.inl (Or.inr hx)
            · exact Or.inl (Or.inl rfl)
            · exact Or.inr ⟨hx, hxf⟩
      · simp [he] at h

/-- Where the call `delRange(r, deleted)` has a defined result and `r` has
non-zero size, the remaining list holds exactly the ranges of the list that
`r` does not intersect, and `deleted` has received exactly the intersected
ranges, each of which equals its intersection with `r`. -/
theorem RangeList.delRange_some (L : RangeList) (r : Range) (deleted : RangeList)
    (out : RangeList × RangeList) (hz : r.getSize ≠ 0)
    (h : RangeList.delRange L r deleted = some out) :
    (∀ x, x ∈ out.1 ↔ x ∈ L ∧ (r.rangeIntersection x ⟨0, 0⟩).1 = false) ∧
    (∀ x, x ∈ out.2 ↔
      x ∈ deleted ∨ (x ∈ L ∧ (r.rangeIntersection x ⟨0, 0⟩).1 = true)) ∧
    ∀ x ∈ L, (r.rangeIntersection x ⟨0, 0⟩).1 = true → (r.rangeIntersection x ⟨0, 0⟩).2 = x := by
  have hnone : ¬ RangeList.delRange L r deleted = none := by simp [h]
  rw [RangeList.delRange_eq_none_iff] at hnone
  unfold RangeList.delRange at h
  simp only [hz, if_false] at h
  cases hl : RangeList.delRangeLoop r L ⟨0, 0⟩ [] deleted with
  | none => simp [hl] at h
  | some o =>
    simp only [hl, Option.some.injEq] at h
    subst h
    obtain ⟨h1, h2⟩ := RangeList.delRangeLoop_some r L ⟨0, 0⟩ [] deleted o hl
    refine ⟨fun x => by simpa using h1 x, h2, fun x hx hf => ?_⟩
    by_contra hne
    exact hnone ⟨hz, x, hx, hf, hne⟩

/-- C6 (code at the failing input): on the list `{[0,10), [20,30)}` the call
`delRange([3,7), deleted)` has to split `[0,10)`; it executes
`newList.insert(it, ...)` (RangeManip.cpp 68 and 73) with the loop iterator of
`*this` as the position hint of another container and has no defined result,
so no statement about the remaining list holds of it. Deleting the whole
range `[0,10)` executes no such insertion and leaves `{[20,30)}`. -/
theorem C6_delRange_invalid_hint :
    RangeList.WF [⟨0, 10⟩, ⟨20, 30⟩] ∧
    RangeList.delRange [⟨0, 10⟩, ⟨20, 30⟩] ⟨3, 7⟩ [] = none ∧
    RangeList.delRange [⟨0, 10⟩, ⟨20, 30⟩] ⟨0, 10⟩ [] = some ([⟨20, 30⟩], [⟨0, 10⟩]) := by
  decide

/-- C7 (code at the failing input): on the list `{[0,10), [20,30), [40,50)}`
with an empty `deleted` the call `delRange([2,5), deleted)` has to split
`[0,10)`; it executes `newList.insert(it, ...)` (RangeManip.cpp 68 and 73) with
the loop iterator of `*this` as the position hint of another container and has
no defined result: there is no `deleted` list after the call to compare with
`[2,5)`, the overlap of `r` with the list. -/
theorem C7_delRange_invalid_hint :
    RangeList.WF [⟨0, 10⟩, ⟨20, 30⟩, ⟨40, 50⟩] ∧
    (Range.rangeIntersection ⟨2, 5⟩ ⟨0, 10⟩ ⟨0, 0⟩) = (true, ⟨2, 5⟩) ∧
    RangeList.delRange [⟨0, 10⟩, ⟨20, 30⟩, ⟨40, 50⟩] ⟨2, 5⟩ [] = none := by
  decide

/-- C8 (code at the failing input): on the list `{[0,5), [10,20)}` the call
`delRange([15,18), deleted)` has to keep the remainders `[10,15)` and
`[18,20)` of `[10,20)`; it executes `newList.insert(it, ...)`
(RangeManip.cpp 68 and 73) with the loop iterator of `*this` as the position
hint of another container and has no defined result. The point 12 is covered
by the list and lies outside `[15,18)`, so the claim requires it to stay
covered. -/
theorem C8_delRange_invalid_hint :
    RangeList.WF [⟨0, 5⟩, ⟨10, 20⟩] ∧
    RangeList.covers [⟨0, 5⟩, ⟨10, 20⟩] 12 ∧ ¬ (⟨15, 18⟩ : Range).contains 12 ∧
    RangeList.delRange [⟨0, 5⟩, ⟨10, 20⟩] ⟨15, 18⟩ [] = none := by
  decide

/-- C9 (code at the failing input): with `a = -10 < c = -7 < d = -3 < b = 10`
the call `delRange([-7,-3), deleted)` on the list `{[-10,10)}` executes
`newList.insert(it, ...)` (RangeManip.cpp 68 and 73) with the loop iterator of
`*this` as the position hint of another container and has no defined result;
so does the call of the example, `delRange([3,7), deleted)` on `{[0,10)}`. -/
theorem C9_delRange_invalid_hint :
    RangeList.delRange [⟨-10, 10⟩] ⟨-7, -3⟩ [] = none ∧
    RangeList.delRange [⟨0, 10⟩] ⟨3, 7⟩ [] = none := by
  decide

/-! ## merge -/

theorem RangeList.insert_append (x : Range) (l : RangeList) (h : ∀ y ∈ l, y < x) :
    RangeList.insert x l = l ++ [x] := by
  induction l with
  | nil => rfl
  | cons y ys ih =>
    have hy : y < x := h y (List.mem_cons_self _ _)
    have hn : ¬ x < y := Range.lt_asymm y x hy
    unfold RangeList.insert
    rw [if_neg hn, if_pos hy, ih (fun z hz => h z (List.mem_cons_of_mem _ hz))]
    rfl

theorem RangeList.mergeEmit_shape (rest : List Range) :
    ∀ (c e : Range), e ∈ RangeList.mergeEmit rest c →
      ∃ y ∈ c :: rest, e.first = y.first ∧ y.second ≤ e.second := by
  induction rest with
  | nil =>
    intro c e he
    simp only [RangeList.mergeEmit, List.mem_singleton] at he
    exact ⟨c, List.mem_cons_self _ _, by rw [he], by rw [he]⟩
  | cons it rest ih =>
    intro c e he
    unfold RangeList.mergeEmit at he
    split at he
    · obtain ⟨y, hy, h1, h2⟩ := ih _ e he
      rcases List.mem_cons.1 hy with rfl | hy
      · exact ⟨c, List.mem_cons_self _ _, h1, by simp only at h2; omega⟩
      · exact ⟨y, List.mem_cons_of_mem _ (List.mem_cons_of_mem _ hy), h1, h2⟩
    · rcases List.mem_cons.1 he with rfl | he
      · exact ⟨e, List.mem_cons_self _ _, rfl, le_refl _⟩
      · obtain ⟨y, hy, h1, h2⟩ := ih _ e he
        exact ⟨y, List.mem_cons_of_mem _ hy, h1, h2⟩

theorem RangeList.mergeEmit_pairwise (rest : List Range) :
    ∀ c : Range, rest.Pairwise (fun a b => a < b) →
      (∀ y ∈ rest, c.first ≤ y.first ∧ (c.second < y.first → c < y)) →
      (RangeList.mergeEmit rest c).Pairwise (fun p q => p.second < q.first ∧ p < q) := by
  induction rest with
  | nil => intro c _ _; simp [RangeList.mergeEmit]
  | cons it rest ih =>
    intro c hs hP
    rw [List.pairwise_cons] at hs
    obtain ⟨hit, hs⟩ := hs
    have hPit := hP it (List.mem_cons_self _ _)
    unfold RangeList.mergeEmit Range.getEnd Range.getStart
    split
    · rename_i hm
      refine ih _ hs (fun y hy => ?_)
      have hPy := hP y (List.mem_cons_of_mem _ hy)
      refine ⟨hPy.1, fun hlt => ?_⟩
      rw [Range.lt_iff]
      simp only at hlt ⊢
      omega
    · rename_i hm
      rw [List.pairwise_cons]
      refine ⟨fun e he => ?_, ih it hs (fun y hy => ?_)⟩
      · obtain ⟨y, hy, h1, h2⟩ := RangeList.mergeEmit_shape rest it e he
        have hity : it.first ≤ y.first := by
          rcases List.mem_cons.1 hy with rfl | hy
          · exact le_refl _
          · have := hit y hy
            rw [Range.lt_iff] at this
            omega
        have hPy := hP y hy
        have hcy : c < y := hPy.2 (by omega)
        rw [Range.lt_iff] at hcy ⊢
        omega
      · have := hit y hy
        refine ⟨?_, fun _ => this⟩
        rw [Range.lt_iff] at this
        omega

theorem RangeList.mergeLoop_eq (rest : List Range) :
    ∀ (c : Range) (acc : RangeList),
      (acc ++ RangeList.mergeEmit rest c).Pairwise (fun a b => a < b) →
      RangeList.mergeLoop rest c acc = acc ++ RangeList.mergeEmit rest c := by
  induction rest with
  | nil =>
    intro c acc h
    simp only [RangeList.mergeLoop, RangeList.mergeEmit]
    exact RangeList.insert_append c acc (fun y hy =>
      (List.pairwise_append.1 h).2.2 y hy c (List.mem_singleton_self _))
  | cons it rest ih =>
    intro c acc h
    unfold RangeList.mergeLoop
    unfold RangeList.mergeEmit at h ⊢
    split
    · rename_i hm
      rw [if_pos hm] at h
      exact ih _ acc h
    · rename_i hm
      rw [if_neg hm] at h
      have hins : RangeList.insert c acc = acc ++ [c] :=
        RangeList.insert_append c acc (fun y hy =>
          (List.pairwise_append.1 h).2.2 y hy c (List.mem_cons_self _ _))
      rw [hins, ih it (acc ++ [c]) (by simpa using h)]
      simp

theorem RangeList.mergeEmit_fixed (l : List Range) :
    ∀ e : Range, (e :: l).Pairwise (fun p q => p.second < q.first ∧ p < q) →
      RangeList.mergeEmit l e = e :: l := by
  induction l with
  | nil => intro e _; rfl
  | cons x xs ih =>
    intro e h
    rw [List.pairwise_cons] at h
    have hx := (h.1 x (List.mem_cons_self _ _)).1
    unfold RangeList.mergeEmit Range.getEnd Range.getStart
    rw [if_neg (by omega), ih x h.2]

theorem RangeList.merge_eq_mergeEmit (it : Range) (rest : List Range)
    (hwf : RangeList.WF (it :: rest)) :
    RangeList.merge (it :: rest) = RangeList.mergeEmit rest it ∧
      (RangeList.mergeEmit rest it).Pairwise (fun p q => p.second < q.first ∧ p < q) := by
  unfold RangeList.WF at hwf
  rw [List.pairwise_cons] at hwf
  have hp := RangeList.mergeEmit_pairwise rest it hwf.2 (fun y hy => by
    have := hwf.1 y hy
    refine ⟨?_, fun _ => this⟩
    rw [Range.lt_iff] at this
    omega)
  refine ⟨?_, hp⟩
  have := RangeList.mergeLoop_eq rest it [] (by
    simpa using hp.imp (fun h => h.2))
  simpa [RangeList.merge] using this

/-- C10: for every `RangeList` (a `std::set<Range>`, so iterated in strictly
increasing order), applying `merge()` twice gives the same list as applying it
once. -/
theorem C10_merge_idempotent (L : RangeList) (hwf : RangeList.WF L) :
    RangeList.merge (RangeList.merge L) = RangeList.merge L := by
  cases L with
  | nil => rfl
  | cons it rest =>
    obtain ⟨heq, hp⟩ := RangeList.merge_eq_mergeEmit it rest hwf
    rw [heq]
    cases hE : RangeList.mergeEmit rest it with
    | nil => rfl
    | cons e E =>
      rw [hE] at hp
      have hwf2 : RangeList.WF (e :: E) := hp.imp (fun h => h.2)
      rw [(RangeList.merge_eq_mergeEmit e E hwf2).1]
      exact RangeList.mergeEmit_fixed E e hp

/-- C10 (witness): `{[0,10), [2,3), [10,12), [20,21)}` merges to
`{[0,12), [20,21)}`, and merging again changes nothing. -/
theorem C10_merge_idempotent_witness :
    RangeList.WF [⟨0, 10⟩, ⟨2, 3⟩, ⟨10, 12⟩, ⟨20, 21⟩] ∧
    RangeList.merge (RangeList.merge [⟨0, 10⟩, ⟨2, 3⟩, ⟨10, 12⟩, ⟨20, 21⟩]) =
      RangeList.merge [⟨0, 10⟩, ⟨2, 3⟩, ⟨10, 12⟩, ⟨20, 21⟩] :=
  ⟨by decide, C10_merge_idempotent [⟨0, 10⟩, ⟨2, 3⟩, ⟨10, 12⟩, ⟨20, 21⟩] (by decide)⟩

/-! ## merge: covered points and minimality -/

theorem RangeList.covers_cons (x : Range) (l : List Range) (p : Int) :
    RangeList.covers (x :: l) p ↔ (x.contains p ∨ RangeList.covers l p) := by
  simp [RangeList.covers]

theorem RangeList.covers_mergeEmit (rest : List Range) :
    ∀ c : Range, rest.Pairwise (fun a b => a < b) → (∀ y ∈ rest, c.first ≤ y.first) →
      ∀ p : Int, RangeList.covers (RangeList.mergeEmit rest c) p ↔
        (c.contains p ∨ RangeList.covers rest p) := by
  induction rest with
  | nil =>
    intro c _ _ p
    simp [RangeList.mergeEmit, RangeList.covers]
  | cons it rest ih =>
    intro c hs hc p
    rw [List.pairwise_cons] at hs
    have hit : c.first ≤ it.first := hc it (List.mem_cons_self _ _)
    have hrest : ∀ y ∈ rest, c.first ≤ y.first := fun y hy => hc y (List.mem_cons_of_mem _ hy)
    have hitrest : ∀ y ∈ rest, it.first ≤ y.first := by
      intro y hy
      have := hs.1 y hy
      rw [Range.lt_iff] at this
      omega
    unfold RangeList.mergeEmit Range.getEnd Range.getStart
    split
    · rename_i hm
      rw [ih ⟨c.first, max c.second it.second⟩ hs.2 hrest p, RangeList.covers_cons]
      have hpt : (⟨c.first, max c.second it.second⟩ : Range).contains p ↔
          (c.contains p ∨ it.contains p) := by
        unfold Range.contains
        simp only
        omega
      rw [hpt]
      tauto
    · rw [RangeList.covers_cons, RangeList.covers_cons, ih it hs.2 hitrest p]

/-- C11: for every `RangeList` (a `std::set<Range>`, iterated in strictly
increasing order), the integer points covered after `merge()` are exactly the
points covered before it. -/
theorem C11_merge_preserves_points (L : RangeList) (hwf : RangeList.WF L) :
    ∀ p : Int, RangeList.covers (RangeList.merge L) p ↔ RangeList.covers L p := by
  intro p
  cases L with
  | nil => rfl
  | cons it rest =>
    rw [(RangeList.merge_eq_mergeEmit it rest hwf).1]
    unfold RangeList.WF at hwf
    rw [List.pairwise_cons] at hwf
    rw [RangeList.covers_mergeEmit rest it hwf.2 (fun y hy => by
      have := hwf.1 y hy
      rw [Range.lt_iff] at this
      omega) p, RangeList.covers_cons]

/-- C11 (witness): a list whose second range `[2,3)` is nested in the running
range `[0,10)`. -/
theorem C11_merge_preserves_points_witness :
    RangeList.WF [⟨0, 10⟩, ⟨2, 3⟩, ⟨10, 12⟩, ⟨20, 21⟩] ∧
    ∀ p : Int, RangeList.covers (RangeList.merge [⟨0, 10⟩, ⟨2, 3⟩, ⟨10, 12⟩, ⟨20, 21⟩]) p ↔
      RangeList.covers [⟨0, 10⟩, ⟨2, 3⟩, ⟨10, 12⟩, ⟨20, 21⟩] p :=
  ⟨by decide, C11_merge_preserves_points [⟨0, 10⟩, ⟨2, 3⟩, ⟨10, 12⟩, ⟨20, 21⟩] (by decide)⟩

theorem RangeList.length_le_of_separated (M : List Range) :
    ∀ K : List Range, M.Pairwise (fun p q => p.second < q.first) →
      (∀ c ∈ M, c.first < c.second) → (∀ c ∈ M, RangeList.covers K c.first) →
      (∀ c ∈ M, ¬ RangeList.covers K c.second) → M.length ≤ K.length := by
  induction M with
  | nil => intro K _ _ _ _; exact Nat.zero_le _
  | cons c M ih =>
    intro K hsep hpos hcov hunc
    rw [List.pairwise_cons] at hsep
    obtain ⟨k, hk, hkc⟩ := hcov c (List.mem_cons_self _ _)
    have hcpos := hpos c (List.mem_cons_self _ _)
    have hkend : k.second ≤ c.second := by
      by_contra hlt
      exact hunc c (List.mem_cons_self _ _) ⟨k, hk, by unfold Range.contains at hkc ⊢; omega⟩
    have hlen : (K.erase k).length + 1 = K.length := by
      rw [List.length_erase_of_mem hk]
      have : 0 < K.length := List.length_pos_of_mem hk
      omega
    have := ih (K.erase k) hsep.2 (fun d hd => hpos d (List.mem_cons_of_mem _ hd))
      (fun d hd => by
        obtain ⟨k2, hk2, hk2c⟩ := hcov d (List.mem_cons_of_mem _ hd)
        have hcd := hsep.1 d hd
        have hne : k2 ≠ k := by
          intro h
          subst h
          unfold Range.contains at hk2c
          omega
        exact ⟨k2, (List.mem_erase_of_ne hne).2 hk2, hk2c⟩)
      (fun d hd hcv => by
        obtain ⟨k2, hk2, hk2c⟩ := hcv
        exact hunc d (List.mem_cons_of_mem _ hd) ⟨k2, List.mem_of_mem_erase hk2, hk2c⟩)
    simp only [List.length_cons]
    omega

theorem RangeList.merge_separated (L : RangeList) (hwf : RangeList.WF L) :
    (RangeList.merge L).Pairwise (fun p q => p.second < q.first) := by
  cases L with
  | nil => exact List.Pairwise.nil
  | cons it rest =>
    obtain ⟨heq, hp⟩ := RangeList.merge_eq_mergeEmit it rest hwf
    rw [heq]
    exact hp.imp (fun h => h.1)

theorem RangeList.merge_positive (L : RangeList) (hpos : ∀ x ∈ L, x.first < x.second)
    (hwf : RangeList.WF L) : ∀ c ∈ RangeList.merge L, c.first < c.second := by
  cases L with
  | nil => intro c hc; simp [RangeList.merge] at hc
  | cons it rest =>
    intro c hc
    rw [(RangeList.merge_eq_mergeEmit it rest hwf).1] at hc
    obtain ⟨y, hy, h1, h2⟩ := RangeList.mergeEmit_shape rest it c hc
    have := hpos y hy
    omega

/-- C12 (counterexample): `{[0,0), [5,6)}` is left unchanged by `merge()`; the
one-range list `{[5,6)}` covers the same points with fewer ranges. -/
theorem C12_merge_minimal_counterexample :
    RangeList.WF [⟨0, 0⟩, ⟨5, 6⟩] ∧
    RangeList.merge [⟨0, 0⟩, ⟨5, 6⟩] = [⟨0, 0⟩, ⟨5, 6⟩] ∧
    ([⟨5, 6⟩] : RangeList).length < (RangeList.merge [⟨0, 0⟩, ⟨5, 6⟩]).length ∧
    ∀ p : Int, RangeList.covers [⟨5, 6⟩] p ↔
      RangeList.covers (RangeList.merge [⟨0, 0⟩, ⟨5, 6⟩]) p := by
  refine ⟨by decide, by decide, by decide, fun p => ?_⟩
  have h : RangeList.merge [⟨0, 0⟩, ⟨5, 6⟩] = [⟨0, 0⟩, ⟨5, 6⟩] := by decide
  rw [h]
  simp only [RangeList.covers, Range.contains, List.mem_cons, List.mem_singleton,
    List.not_mem_nil, or_false, exists_eq_or_imp, exists_eq_left]
  omega

/-- C12 (amended): for every `RangeList` (a `std::set<Range>`), any two ranges
`p` before `q` of the result of `merge()` (in particular consecutive ones)
satisfy `p.end < q.start`; when every range of the result has positive size,
no list with fewer ranges covers the same set of points; and every range of
the result has positive size when every range of the list had. -/
theorem C12_merge_minimal_positive (L : RangeList) (hwf : RangeList.WF L) :
    (RangeList.merge L).Pairwise (fun p q => p.second < q.first) ∧
      ((∀ c ∈ RangeList.merge L, c.first < c.second) →
        ∀ K : List Range, (∀ p : Int, RangeList.covers K p ↔ RangeList.covers (RangeList.merge L) p) →
          (RangeList.merge L).length ≤ K.length) ∧
      ((∀ x ∈ L, x.first < x.second) → ∀ c ∈ RangeList.merge L, c.first < c.second) := by
  have hsep := RangeList.merge_separated L hwf
  refine ⟨hsep, fun hpos K hK => ?_, fun hL => RangeList.merge_positive L hL hwf⟩
  refine RangeList.length_le_of_separated (RangeList.merge L) K hsep hpos
    (fun c hc => (hK c.first).2 ⟨c, hc, ?_⟩) (fun c hc hcv => ?_)
  · have := hpos c hc
    unfold Range.contains
    omega
  · obtain ⟨d, hd, hdc⟩ := (hK c.second).1 hcv
    have hdpos := hpos d hd
    unfold Range.contains at hdc
    rcases List.mem_iff_getElem.1 hc with ⟨i, hi, rfl⟩
    rcases List.mem_iff_getElem.1 hd with ⟨j, hj, rfl⟩
    rcases Nat.lt_trichotomy i j with hij | hij | hij
    · have := List.pairwise_iff_getElem.1 hsep i j hi hj hij
      omega
    · subst hij
      omega
    · have := List.pairwise_iff_getElem.1 hsep j i hj hi hij
      have := hpos _ (List.getElem_mem hi)
      omega

/-- C12 (witness): `{[0,10), [2,3), [10,12), [20,21)}`, whose ranges all have
positive size. -/
theorem C12_merge_minimal_positive_witness :
    RangeList.WF [⟨0, 10⟩, ⟨2, 3⟩, ⟨10, 12⟩, ⟨20, 21⟩] ∧
    (∀ x ∈ ([⟨0, 10⟩, ⟨2, 3⟩, ⟨10, 12⟩, ⟨20, 21⟩] : RangeList), x.first < x.second) ∧
    ((RangeList.merge [⟨0, 10⟩, ⟨2, 3⟩, ⟨10, 12⟩, ⟨20, 21⟩]).Pairwise
        (fun p q => p.second < q.first) ∧
      ((∀ c ∈ RangeList.merge [⟨0, 10⟩, ⟨2, 3⟩, ⟨10, 12⟩, ⟨20, 21⟩], c.first < c.second) →
        ∀ K : List Range,
          (∀ p : Int, RangeList.covers K p ↔
            RangeList.covers (RangeList.merge [⟨0, 10⟩, ⟨2, 3⟩, ⟨10, 12⟩, ⟨20, 21⟩]) p) →
          (RangeList.merge [⟨0, 10⟩, ⟨2, 3⟩, ⟨10, 12⟩, ⟨20, 21⟩]).length ≤ K.length) ∧
      ((∀ x ∈ ([⟨0, 10⟩, ⟨2, 3⟩, ⟨10, 12⟩, ⟨20, 21⟩] : RangeList), x.first < x.second) →
        ∀ c ∈ RangeList.merge [⟨0, 10⟩, ⟨2, 3⟩, ⟨10, 12⟩, ⟨20, 21⟩], c.first < c.second)) :=
  ⟨by decide, by decide,
    C12_merge_minimal_positive [⟨0, 10⟩, ⟨2, 3⟩, ⟨10, 12⟩, ⟨20, 21⟩] (by decide)⟩

/-! ## rangeIntersection and rangeUnion -/

/-- C13: for ranges `a` and `b` of non-negative size, `a.rangeIntersection(b,
out)` returns true exactly when `max(a.start, b.start) < min(a.end, b.end)`,
and then `out` is `[max(a.start, b.start), min(a.end, b.end))`; when the
ranges are disjoint or merely touch (`a.end <= b.start` or
`b.end <= a.start`) it returns false. -/
theorem C13_rangeIntersection_overlap (a b out : Range)
    (ha : 0 ≤ a.getSize) (hb : 0 ≤ b.getSize) :
    ((a.rangeIntersection b out).1 = true ↔
        max a.getStart b.getStart < min a.getEnd b.getEnd) ∧
      ((a.rangeIntersection b out).1 = true →
        (a.rangeIntersection b out).2 =
          ⟨max a.getStart b.getStart, min a.getEnd b.getEnd⟩) ∧
      ((a.getEnd ≤ b.getStart ∨ b.getEnd ≤ a.getStart) →
        (a.rangeIntersection b out).1 = false) := by
  unfold Range.getSize at ha hb
  unfold Range.getStart Range.getEnd
  refine ⟨?_, fun h => ?_, fun h => ?_⟩
  · rw [Range.rangeIntersection_true_iff]
    omega
  · have h0 : (a.rangeIntersection b ⟨0, 0⟩).1 = true := by
      rw [← Range.rangeIntersection_flag a b out]; exact h
    rw [Range.rangeIntersection_out a b out h0]
  · rw [Range.rangeIntersection_false_iff]
    omega

/-- C13 (witness): `[0,10)` and `[3,7)`. -/
theorem C13_rangeIntersection_overlap_witness :
    0 ≤ (⟨0, 10⟩ : Range).getSize ∧ 0 ≤ (⟨3, 7⟩ : Range).getSize ∧
    ((((⟨0, 10⟩ : Range).rangeIntersection ⟨3, 7⟩ ⟨0, 0⟩).1 = true ↔
        max (⟨0, 10⟩ : Range).getStart (⟨3, 7⟩ : Range).getStart <
          min (⟨0, 10⟩ : Range).getEnd (⟨3, 7⟩ : Range).getEnd) ∧
      (((⟨0, 10⟩ : Range).rangeIntersection ⟨3, 7⟩ ⟨0, 0⟩).1 = true →
        ((⟨0, 10⟩ : Range).rangeIntersection ⟨3, 7⟩ ⟨0, 0⟩).2 =
          ⟨max (⟨0, 10⟩ : Range).getStart (⟨3, 7⟩ : Range).getStart,
            min (⟨0, 10⟩ : Range).getEnd (⟨3, 7⟩ : Range).getEnd⟩) ∧
      (((⟨0, 10⟩ : Range).getEnd ≤ (⟨3, 7⟩ : Range).getStart ∨
          (⟨3, 7⟩ : Range).getEnd ≤ (⟨0, 10⟩ : Range).getStart) →
        ((⟨0, 10⟩ : Range).rangeIntersection ⟨3, 7⟩ ⟨0, 0⟩).1 = false)) :=
  ⟨by decide, by decide,
    C13_rangeIntersection_overlap ⟨0, 10⟩ ⟨3, 7⟩ ⟨0, 0⟩ (by decide) (by decide)⟩

theorem Range.rangeUnion_eq (a b out : Range) :
    a.rangeUnion b out =
      if a.first ≤ b.second ∧ b.first ≤ a.second ∧
          max a.second b.second ≠ min a.first b.first then
        (false, ⟨min a.first b.first, max a.second b.second⟩)
      else (false, out) := by
  unfold Range.rangeUnion Range.getStart Range.getEnd Range.setRange Range.ofStartSize
  simp only [max_def, min_def]
  split_ifs <;>
    first
    | rfl
    | (exfalso; omega)
    | (simp only [Prod.mk.injEq, Range.mk.injEq, true_and]; omega)

/-- C14 (counterexample): `a = b = [5,5)` touch (`a.start <= b.end` and
`b.start <= a.end`), yet `a.rangeUnion(b, out)` called with `out = [0,0)`
leaves `out` at `[0,0)`, not at the bounding range `[5,5)`. -/
theorem C14_rangeUnion_writes_counterexample :
    (⟨5, 5⟩ : Range).getStart ≤ (⟨5, 5⟩ : Range).getEnd ∧
    ((⟨5, 5⟩ : Range).rangeUnion ⟨5, 5⟩ ⟨0, 0⟩).2 = ⟨0, 0⟩ ∧
    ((⟨5, 5⟩ : Range).rangeUnion ⟨5, 5⟩ ⟨0, 0⟩).2 ≠
      ⟨min (⟨5, 5⟩ : Range).getStart (⟨5, 5⟩ : Range).getStart,
        max (⟨5, 5⟩ : Range).getEnd (⟨5, 5⟩ : Range).getEnd⟩ := by
  decide

/-- C14 (amended): `a.rangeUnion(b, out)` returns false for every pair of
ranges. For ranges that touch or overlap (`a.start <= b.end` and
`b.start <= a.end`) it writes the bounding range
`[min(a.start, b.start), max(a.end, b.end))` to `out` when that range has
non-zero size, and leaves `out` unchanged when it has size zero. -/
theorem C14_rangeUnion_bounding (a b out : Range) :
    (a.rangeUnion b out).1 = false ∧
      (a.getStart ≤ b.getEnd ∧ b.getStart ≤ a.getEnd →
        (max a.getEnd b.getEnd - min a.getStart b.getStart ≠ 0 →
          (a.rangeUnion b out).2 =
            ⟨min a.getStart b.getStart, max a.getEnd b.getEnd⟩) ∧
        (max a.getEnd b.getEnd - min a.getStart b.getStart = 0 →
          (a.rangeUnion b out).2 = out)) := by
  unfold Range.getStart Range.getEnd
  rw [Range.rangeUnion_eq]
  refine ⟨by split_ifs <;> rfl, fun h => ⟨fun hs => ?_, fun hs => ?_⟩⟩
  · rw [if_pos ⟨h.1, h.2, by omega⟩]
  · rw [if_neg (by omega)]

/-- C14 (witness): the overlapping ranges `[0,10)` and `[3,12)`. -/
theorem C14_rangeUnion_bounding_witness :
    ((⟨0, 10⟩ : Range).getStart ≤ (⟨3, 12⟩ : Range).getEnd ∧
      (⟨3, 12⟩ : Range).getStart ≤ (⟨0, 10⟩ : Range).getEnd) ∧
    ((⟨0, 10⟩ : Range).rangeUnion ⟨3, 12⟩ ⟨0, 0⟩).2 = ⟨0, 12⟩ ∧
    (((⟨0, 10⟩ : Range).rangeUnion ⟨3, 12⟩ ⟨0, 0⟩).1 = false ∧
      ((⟨0, 10⟩ : Range).getStart ≤ (⟨3, 12⟩ : Range).getEnd ∧
          (⟨3, 12⟩ : Range).getStart ≤ (⟨0, 10⟩ : Range).getEnd →
        (max (⟨0, 10⟩ : Range).getEnd (⟨3, 12⟩ : Range).getEnd -
            min (⟨0, 10⟩ : Range).getStart (⟨3, 12⟩ : Range).getStart ≠ 0 →
          ((⟨0, 10⟩ : Range).rangeUnion ⟨3, 12⟩ ⟨0, 0⟩).2 =
            ⟨min (⟨0, 10⟩ : Range).getStart (⟨3, 12⟩ : Range).getStart,
              max (⟨0, 10⟩ : Range).getEnd (⟨3, 12⟩ : Range).getEnd⟩) ∧
        (max (⟨0, 10⟩ : Range).getEnd (⟨3, 12⟩ : Range).getEnd -
            min (⟨0, 10⟩ : Range).getStart (⟨3, 12⟩ : Range).getStart = 0 →
          ((⟨0, 10⟩ : Range).rangeUnion ⟨3, 12⟩ ⟨0, 0⟩).2 = ⟨0, 0⟩))) :=
  ⟨by decide, by decide, C14_rangeUnion_bounding ⟨0, 10⟩ ⟨3, 12⟩ ⟨0, 0⟩⟩

/-! ## Handle reuse against the colorbuffer table -/

theorem FrameBuffer.genHandle_next (fb : FrameBuffer) (hc : fb.m_contexts = [])
    (hw : fb.m_windows = []) (hn : fb.s_nextHandle + 1 < 2 ^ 32) :
    fb.genHandle = some (fb.s_nextHandle + 1, { fb with s_nextHandle := fb.s_nextHandle + 1 }) := by
  have hmod : (fb.s_nextHandle + 1) % 2 ^ 32 = fb.s_nextHandle + 1 := Nat.mod_eq_of_lt hn
  have hloop : FrameBuffer.genHandleLoop fb.m_contexts fb.m_windows (4294967295 + 1)
      fb.s_nextHandle = some (fb.s_nextHandle + 1) := by
    rw [FrameBuffer.genHandleLoop]
    simp only [hmod, hc, hw, HandleMap.find]
    simp
  unfold FrameBuffer.genHandle
  rw [show (2 : Nat) ^ 32 = 4294967295 + 1 from by norm_num, hloop]

theorem FrameBuffer.run_churnCalls (win : WindowSurface) (k : Nat) :
    ∀ fb : FrameBuffer, fb.m_contexts = [] → fb.m_windows = [] →
      fb.s_nextHandle + k < 2 ^ 32 →
      fb.run (FrameBuffer.churnCalls win k (fb.s_nextHandle + 1)) =
        some { fb with s_nextHandle := fb.s_nextHandle + k } := by
  induction k with
  | zero => intro fb _ _ _; rfl
  | succ k ih =>
    intro fb hc hw hn
    have hn1 : fb.s_nextHandle + 1 < 2 ^ 32 :=
      Nat.lt_of_le_of_lt (Nat.add_le_add_left (Nat.succ_le_succ (Nat.zero_le k)) _) hn
    have hg := FrameBuffer.genHandle_next fb hc hw hn1
    have hcreate : fb.call (RegistryCall.createWindowSurface (some win)) =
        some { fb with s_nextHandle := fb.s_nextHandle + 1,
                       m_windows := [(fb.s_nextHandle + 1, win)] } := by
      simp [FrameBuffer.call, FrameBuffer.createWindowSurface, hg, hw, HandleMap.insert]
    have hdestroy : FrameBuffer.call
        { fb with s_nextHandle := fb.s_nextHandle + 1, m_windows := [(fb.s_nextHandle + 1, win)] }
        (RegistryCall.DestroyWindowSurface (fb.s_nextHandle + 1)) =
          some { fb with s_nextHandle := fb.s_nextHandle + 1, m_windows := [] } := by
      simp [FrameBuffer.call, FrameBuffer.DestroyWindowSurface, HandleMap.erase]
    have hsum : fb.s_nextHandle + 1 + k = fb.s_nextHandle + (k + 1) := by
      rw [Nat.add_assoc, Nat.add_comm 1 k]
    have := ih { fb with s_nextHandle := fb.s_nextHandle + 1, m_windows := [] } hc rfl
      (by simp only; rw [hsum]; exact hn)
    simp only [FrameBuffer.churnCalls, FrameBuffer.run, hcreate, hdestroy]
    rw [this]
    cases fb
    simp only [FrameBuffer.mk.injEq, Option.some.injEq, and_true, true_and] at hw ⊢
    exact ⟨hsum, hw.symm⟩

/-- C15 (the code at the failing input): the registry in which colorbuffer `A`
is live under handle 1 and the counter stands at `2 ^ 32 - 1` is reached from
the empty registry by `FrameBuffer.wrapCalls`. In it `createColorBuffer`
returns handle 1, a key of the colorbuffer table, and replaces the entry of
`A` (refcount 1) by the new buffer; `createWindowSurface` and
`createRenderContext` return handle 1 as well. -/
theorem C15_colorbuffer_handle_reused :
    FrameBuffer.empty.run FrameBuffer.wrapCalls = some FrameBuffer.sampleWrappedState ∧
    HandleMap.find 1 FrameBuffer.sampleWrappedState.m_colorbuffers = some ⟨⟨64⟩, 1⟩ ∧
    FrameBuffer.sampleWrappedState.createColorBuffer (some ⟨65⟩) =
      some (1, { FrameBuffer.sampleWrappedState with
        s_nextHandle := 1, m_colorbuffers := [(1, ⟨⟨65⟩, 1⟩)] }) ∧
    (FrameBuffer.sampleWrappedState.createWindowSurface (some ⟨101, 201⟩)).map (fun o => o.1) =
      some 1 ∧
    (FrameBuffer.sampleWrappedState.createRenderContext 0 (some ⟨100, 200, false, 300⟩)).map
      (fun o => o.1) = some 1 := by
  refine ⟨?_, by decide, by decide, by decide, by decide⟩
  have h1 : FrameBuffer.empty.call (RegistryCall.createColorBuffer (some ⟨64⟩)) =
      some { FrameBuffer.empty with s_nextHandle := 1, m_colorbuffers := [(1, ⟨⟨64⟩, 1⟩)] } := by
    decide
  have h2 := FrameBuffer.run_churnCalls ⟨101, 201⟩ (2 ^ 32 - 2)
    { FrameBuffer.empty with s_nextHandle := 1, m_colorbuffers := [(1, ⟨⟨64⟩, 1⟩)] } rfl rfl
    (by norm_num)
  unfold FrameBuffer.wrapCalls
  rw [FrameBuffer.run]
  simp only [h1]
  exact h2

/-! ## Window surface attachments -/

theorem FrameBuffer.RefcountsWithin_of_colorbuffers (fb fb1 : FrameBuffer) (n : Int)
    (hinv : fb.RefcountsWithin n) (h : fb1.m_colorbuffers = fb.m_colorbuffers) :
    fb1.RefcountsWithin n := by
  unfold FrameBuffer.RefcountsWithin at hinv ⊢
  rw [h]; exact hinv

theorem FrameBuffer.RefcountsWithin_mono (fb : FrameBuffer) (n m : Int)
    (hinv : fb.RefcountsWithin n) (h : n ≤ m) : fb.RefcountsWithin m :=
  fun k ref hk => ⟨(hinv k ref hk).1, le_trans (hinv k ref hk).2 h⟩

theorem FrameBuffer.RefcountsWithin_insert (fb : FrameBuffer) (n : Int) (k : HandleType)
    (ref : ColorBufferRef) (hinv : fb.RefcountsWithin n) (href : 1 ≤ ref.refcount)
    (href2 : ref.refcount ≤ n) :
    FrameBuffer.RefcountsWithin
      { fb with m_colorbuffers := HandleMap.insert k ref fb.m_colorbuffers } n := by
  intro j r hj
  simp only [HandleMap.find_insert] at hj
  split at hj
  · cases hj; exact ⟨href, href2⟩
  · exact hinv j r hj

theorem FrameBuffer.RefcountsWithin_call (fb fb1 : FrameBuffer) (c : RegistryCall) (n : Int)
    (hn : 1 ≤ n) (hinv : fb.RefcountsWithin n) (hcall : fb.call c = some fb1)
    (hmax : n + (if SurfaceCall.isOpen (SurfaceCall.registry c) then 1 else 0) ≤ 2147483647) :
    fb1.RefcountsWithin (n + (if SurfaceCall.isOpen (SurfaceCall.registry c) then 1 else 0)) := by
  cases c with
  | createRenderContext p_share rctx =>
    simp only [FrameBuffer.call, Option.map_eq_some'] at hcall
    obtain ⟨⟨ret, fb2⟩, hout, rfl⟩ := hcall
    simp only [SurfaceCall.isOpen, Bool.false_eq_true, if_false, add_zero]
    rcases FrameBuffer.createRenderContext_some fb fb2 p_share ret rctx hout with
      ⟨_, rfl⟩ | ⟨r, fb3, _, hg, rfl⟩
    · exact hinv
    · obtain ⟨_, _, _, rfl⟩ := FrameBuffer.genHandle_spec fb fb3 ret hg
      exact FrameBuffer.RefcountsWithin_of_colorbuffers fb _ n hinv rfl
  | createWindowSurface win =>
    simp only [FrameBuffer.call, Option.map_eq_some'] at hcall
    obtain ⟨⟨ret, fb2⟩, hout, rfl⟩ := hcall
    simp only [SurfaceCall.isOpen, Bool.false_eq_true, if_false, add_zero]
    rcases FrameBuffer.createWindowSurface_some fb fb2 ret win hout with
      ⟨_, rfl⟩ | ⟨w, fb3, _, hg, rfl⟩
    · exact hinv
    · obtain ⟨_, _, _, rfl⟩ := FrameBuffer.genHandle_spec fb fb3 ret hg
      exact FrameBuffer.RefcountsWithin_of_colorbuffers fb _ n hinv rfl
  | createColorBuffer cb =>
    simp only [FrameBuffer.call, Option.map_eq_some'] at hcall
    obtain ⟨⟨ret, fb2⟩, hout, rfl⟩ := hcall
    simp only [SurfaceCall.isOpen, Bool.false_eq_true, if_false, add_zero]
    rcases FrameBuffer.createColorBuffer_some fb fb2 ret cb hout with
      ⟨_, _, rfl⟩ | ⟨b, fb3, _, hg, rfl⟩
    · exact hinv
    · obtain ⟨_, _, _, rfl⟩ := FrameBuffer.genHandle_spec fb fb3 ret hg
      exact FrameBuffer.RefcountsWithin_insert _ n ret ⟨b, 1⟩
        (FrameBuffer.RefcountsWithin_of_colorbuffers fb _ n hinv rfl) (le_refl 1) hn
  | DestroyRenderContext p_context =>
    simp only [FrameBuffer.call, FrameBuffer.DestroyRenderContext, Option.some.injEq] at hcall
    subst hcall
    simp only [SurfaceCall.isOpen, Bool.false_eq_true, if_false, add_zero]
    exact FrameBuffer.RefcountsWithin_of_colorbuffers fb _ n hinv rfl
  | DestroyWindowSurface p_surface =>
    simp only [FrameBuffer.call, FrameBuffer.DestroyWindowSurface, Option.some.injEq] at hcall
    subst hcall
    simp only [SurfaceCall.isOpen, Bool.false_eq_true, if_false, add_zero]
    exact FrameBuffer.RefcountsWithin_of_colorbuffers fb _ n hinv rfl
  | openColorBuffer p_colorbuffer =>
    simp only [FrameBuffer.call, FrameBuffer.openColorBuffer, Option.some.injEq] at hcall
    subst hcall
    simp only [SurfaceCall.isOpen, if_true] at hmax ⊢
    split
    · exact FrameBuffer.RefcountsWithin_mono fb n (n + 1) hinv (by omega)
    · rename_i c hc
      have hb := hinv p_colorbuffer c hc
      have hw : wrapInt32 (c.refcount + 1) = c.refcount + 1 :=
        wrapInt32_of_range _ (by omega) (by omega)
      exact FrameBuffer.RefcountsWithin_insert fb (n + 1) p_colorbuffer _
        (FrameBuffer.RefcountsWithin_mono fb n (n + 1) hinv (by omega))
        (by simp only [hw]; omega) (by simp only [hw]; omega)
  | closeColorBuffer p_colorbuffer =>
    simp only [FrameBuffer.call, FrameBuffer.closeColorBuffer, Option.some.injEq] at hcall
    subst hcall
    simp only [SurfaceCall.isOpen, Bool.false_eq_true, if_false, add_zero] at hmax ⊢
    split
    · exact hinv
    · rename_i c hc
      have hb := hinv p_colorbuffer c hc
      have hw : wrapInt32 (c.refcount - 1) = c.refcount - 1 :=
        wrapInt32_of_range _ (by omega) (by omega)
      rw [hw]
      split
      · intro j r hj
        simp only [HandleMap.find_erase] at hj
        split at hj
        · cases hj
        · exact hinv j r hj
      · rename_i hne
        exact FrameBuffer.RefcountsWithin_insert fb n p_colorbuffer _ hinv
          (by simp only; omega) (by simp only; omega)

theorem SurfaceState.RefcountsWithin_run (calls : List SurfaceCall) :
    ∀ (st0 st : SurfaceState) (n : Int), 1 ≤ n → st0.fb.RefcountsWithin n →
      n + SurfaceCall.opens calls ≤ 2147483647 → st0.run calls = some st →
      st.fb.RefcountsWithin (n + SurfaceCall.opens calls) := by
  induction calls with
  | nil =>
    intro st0 st n _ hinv _ hrun
    simp only [SurfaceState.run, Option.some.injEq] at hrun
    subst hrun
    simpa [SurfaceCall.opens] using hinv
  | cons c cs ih =>
    intro st0 st n hn hinv hmax hrun
    unfold SurfaceState.run at hrun
    have hopens : (SurfaceCall.opens (c :: cs) : Int) =
        (if SurfaceCall.isOpen c then 1 else 0) + SurfaceCall.opens cs := by
      unfold SurfaceCall.opens
      rw [List.countP_cons]
      by_cases hb : SurfaceCall.isOpen c = true
      · simp only [hb, if_true]
        push_cast
        omega
      · simp [hb]
    rw [hopens] at hmax ⊢
    have hcs : (0 : Int) ≤ SurfaceCall.opens cs := Int.ofNat_nonneg _
    cases hc : st0.call c with
    | none => simp [hc] at hrun
    | some st1 =>
      simp only [hc] at hrun
      have hstep : st1.fb.RefcountsWithin (n + (if SurfaceCall.isOpen c then 1 else 0)) := by
        cases c with
        | registry rc =>
          simp only [SurfaceState.call, Option.map_eq_some'] at hc
          obtain ⟨fb1, hfb, rfl⟩ := hc
          exact FrameBuffer.RefcountsWithin_call st0.fb fb1 rc n hn hinv hfb
            (by split <;> simp_all <;> omega)
        | setWindowSurfaceColorBuffer s k =>
          simp only [SurfaceState.call, Option.some.injEq] at hc
          subst hc
          simpa [SurfaceCall.isOpen] using hinv
      have := ih st1 st (n + (if SurfaceCall.isOpen c then 1 else 0))
        (by split <;> omega) hstep (by omega) hrun
      rw [add_assoc] at this
      exact this

/-- C16 (counterexample): after creating surface 1 and colorbuffer 2,
attaching the colorbuffer to the surface and closing the colorbuffer, surface 1
is still in the surface table with the colorbuffer attached, but the
colorbuffer table is empty. -/
theorem C16_attached_colorbuffer_counterexample :
    SurfaceState.empty.run SurfaceState.sampleCalls = some SurfaceState.sampleState ∧
    HandleMap.find 1 SurfaceState.sampleState.fb.m_windows = some ⟨101, 201⟩ ∧
    HandleMap.find 101 SurfaceState.sampleState.attached = some ⟨64⟩ ∧
    SurfaceState.sampleState.fb.m_colorbuffers = [] := by
  decide

/-- C16 (amended): in every registry state reached from the empty registry by
a sequence of create, destroy, open, close and `setWindowSurfaceColorBuffer`
calls of which at most `2 ^ 31 - 2` are `openColorBuffer` calls, every entry of
the colorbuffer table has refcount at least 1, and a
`setWindowSurfaceColorBuffer(s, c)` that returns true attaches to the surface
of `s` the colorbuffer that the table holds under `c` at that moment, whose
refcount is at least 1. -/
theorem C16_attached_at_attach_time (calls : List SurfaceCall) (st : SurfaceState)
    (hrun : SurfaceState.empty.run calls = some st)
    (hopens : SurfaceCall.opens calls ≤ 2147483646) :
    (∀ (k : HandleType) (ref : ColorBufferRef),
        HandleMap.find k st.fb.m_colorbuffers = some ref → 1 ≤ ref.refcount) ∧
      ∀ (s c : HandleType) (attached1 : HandleMap ColorBuffer),
        st.fb.setWindowSurfaceColorBuffer st.attached s c = (true, attached1) →
        ∃ (w : WindowSurface) (ref : ColorBufferRef),
          HandleMap.find s st.fb.m_windows = some w ∧
          HandleMap.find c st.fb.m_colorbuffers = some ref ∧ 1 ≤ ref.refcount ∧
          HandleMap.find w.ptr attached1 = some ref.cb := by
  have hinv : ∀ (k : HandleType) (ref : ColorBufferRef),
      HandleMap.find k st.fb.m_colorbuffers = some ref → 1 ≤ ref.refcount := by
    intro k ref hk
    exact (SurfaceState.RefcountsWithin_run calls SurfaceState.empty st 1 (le_refl 1)
      (fun k ref h => by simp [SurfaceState.empty, FrameBuffer.empty, HandleMap.find] at h)
      (by omega) hrun k ref hk).1
  refine ⟨hinv, fun s c attached1 hset => ?_⟩
  unfold FrameBuffer.setWindowSurfaceColorBuffer at hset
  cases hw : HandleMap.find s st.fb.m_windows with
  | none => simp [hw] at hset
  | some w =>
    cases hc : HandleMap.find c st.fb.m_colorbuffers with
    | none => simp [hw, hc] at hset
    | some ref =>
      simp only [hw, hc, Prod.mk.injEq, true_and] at hset
      subst hset
      exact ⟨w, ref, rfl, rfl, hinv c ref hc, by simp [HandleMap.find_insert]⟩

/-- C16 (witness): the state after creating surface 1 and colorbuffer 2 (no
`openColorBuffer` call), in which `setWindowSurfaceColorBuffer(1, 2)`
succeeds. -/
theorem C16_attached_at_attach_time_witness :
    SurfaceState.empty.run (SurfaceState.sampleCalls.take 2) =
      some SurfaceState.sampleCreated ∧
    SurfaceCall.opens (SurfaceState.sampleCalls.take 2) ≤ 2147483646 ∧
    SurfaceState.sampleCreated.fb.setWindowSurfaceColorBuffer SurfaceState.sampleCreated.attached
      1 2 = (true, [(101, ⟨64⟩)]) ∧
    ((∀ (k : HandleType) (ref : ColorBufferRef),
        HandleMap.find k SurfaceState.sampleCreated.fb.m_colorbuffers = some ref →
          1 ≤ ref.refcount) ∧
      ∀ (s c : HandleType) (attached1 : HandleMap ColorBuffer),
        SurfaceState.sampleCreated.fb.setWindowSurfaceColorBuffer
          SurfaceState.sampleCreated.attached s c = (true, attached1) →
        ∃ (w : WindowSurface) (ref : ColorBufferRef),
          HandleMap.find s SurfaceState.sampleCreated.fb.m_windows = some w ∧
          HandleMap.find c SurfaceState.sampleCreated.fb.m_colorbuffers = some ref ∧
          1 ≤ ref.refcount ∧ HandleMap.find w.ptr attached1 = some ref.cb) :=
  ⟨by decide, by decide, by decide,
    C16_attached_at_attach_time (SurfaceState.sampleCalls.take 2) SurfaceState.sampleCreated
      (by decide) (by decide)⟩

/-! ## Context teardown -/

/-- C17 (the code at the failing input): whenever the restoring make-current of
the `EglContext` destructor succeeds, the binding afterwards has the context
of the snapshot, but the snapshot's read surface as draw surface and the
snapshot's draw surface as read surface. With context 1, draw surface 2 and
read surface 3 current at the start, the draw surface afterwards is 3 and the
read surface is 2. -/
theorem C17_teardown_restore_swaps_surfaces :
    (∀ (self : EglContext) (g_fakeSurface : Option Nat) (cur : EglCurrent)
        (createdSurface surfPtr : Option Nat) (osMakeCurrentOk : Bool),
        (self.destructor g_fakeSurface cur
            ⟨createdSurface, surfPtr, osMakeCurrentOk, true⟩).2.1 =
          ⟨cur.context, cur.read, cur.draw⟩) ∧
    (EglContext.destructor ⟨10, 20, 30, GLESVersion.GLES_2_0, some 40, 1⟩ none
        ⟨some 1, some 2, some 3⟩ ⟨some 50, some 60, true, true⟩).2.1 =
      ⟨some 1, some 3, some 2⟩ ∧
    (EglContext.destructor ⟨10, 20, 30, GLESVersion.GLES_2_0, some 40, 1⟩ none
        ⟨some 1, some 2, some 3⟩ ⟨some 50, some 60, true, true⟩).2.1 ≠
      ⟨some 1, some 2, some 3⟩ := by
  refine ⟨fun self g cur created surfPtr osOk => ?_, by decide, by decide⟩
  simp [EglContext.destructor, EglCurrent.eglMakeCurrent]

/-! ## Present pipeline -/

theorem FrameBuffer.post_lastPosted (fb : FrameBuffer) (cur : EglCurrent) (env : PostEnv)
    (h : HandleType) (c : ColorBufferRef) (hc : HandleMap.find h fb.m_colorbuffers = some c) :
    (fb.post cur env h).2.1.m_lastPostedColorBuffer = h := by
  unfold FrameBuffer.post
  simp only [hc]
  cases hs : fb.m_subWin <;> cases hb : env.bindOk <;> cases hu : env.unbindOk <;>
    simp [hs, hb, hu, FrameBuffer.bindSubwin_locked, FrameBuffer.unbind_locked]

/-- C19 (counterexample): on the registry holding only colorbuffer 1,
`post(1)` followed by `post(5)` leaves the last-posted handle at 1, not 5. -/
theorem C19_last_posted_counterexample :
    ((FrameBuffer.sampleColorBufferState.post EglCurrent.unbound PostEnv.sample 1).2.1.post
        EglCurrent.unbound PostEnv.sample 5).2.1.m_lastPostedColorBuffer = 1 ∧
    ((FrameBuffer.sampleColorBufferState.post EglCurrent.unbound PostEnv.sample 1).2.1.post
        EglCurrent.unbound PostEnv.sample 5).2.1.m_lastPostedColorBuffer ≠ 5 := by
  decide

/-- C19 (amended): for every registry state and every handle `h` that is a key
of the colorbuffer table, after `post(h)` returns (whatever its result) the
last-posted handle equals `h`, and when `h` is non-zero a following `repost()`
is `post(h)`. For a handle that is not a key of the colorbuffer table,
`post(h)` returns false, issues no call and leaves the registry, the
last-posted handle included, unchanged. -/
theorem C19_last_posted_when_known (fb : FrameBuffer) (cur : EglCurrent) (env : PostEnv)
    (h : HandleType) :
    ((HandleMap.find h fb.m_colorbuffers).isSome →
        (fb.post cur env h).2.1.m_lastPostedColorBuffer = h ∧
        (h ≠ 0 → ∀ (cur2 : EglCurrent) (env2 : PostEnv),
          (fb.post cur env h).2.1.repost cur2 env2 = (fb.post cur env h).2.1.post cur2 env2 h)) ∧
      (HandleMap.find h fb.m_colorbuffers = none → fb.post cur env h = (false, fb, cur, [])) := by
  refine ⟨fun hs => ?_, fun hn => ?_⟩
  · obtain ⟨c, hc⟩ := Option.isSome_iff_exists.mp hs
    have hl := FrameBuffer.post_lastPosted fb cur env h c hc
    refine ⟨hl, fun hnz cur2 env2 => ?_⟩
    unfold FrameBuffer.repost
    rw [hl, if_pos hnz]
  · simp [FrameBuffer.post, hn]

/-- C19 (witness): `post(1)` on the registry holding colorbuffer 1. -/
theorem C19_last_posted_when_known_witness :
    (HandleMap.find 1 FrameBuffer.sampleColorBufferState.m_colorbuffers).isSome ∧
    (((HandleMap.find 1 FrameBuffer.sampleColorBufferState.m_colorbuffers).isSome →
        (FrameBuffer.sampleColorBufferState.post EglCurrent.unbound PostEnv.sample
            1).2.1.m_lastPostedColorBuffer = 1 ∧
        ((1 : HandleType) ≠ 0 → ∀ (cur2 : EglCurrent) (env2 : PostEnv),
          (FrameBuffer.sampleColorBufferState.post EglCurrent.unbound PostEnv.sample
              1).2.1.repost cur2 env2 =
            (FrameBuffer.sampleColorBufferState.post EglCurrent.unbound PostEnv.sample
              1).2.1.post cur2 env2 1)) ∧
      (HandleMap.find 1 FrameBuffer.sampleColorBufferState.m_colorbuffers = none →
        FrameBuffer.sampleColorBufferState.post EglCurrent.unbound PostEnv.sample 1 =
          (false, FrameBuffer.sampleColorBufferState, EglCurrent.unbound, []))) :=
  ⟨by decide,
    C19_last_posted_when_known FrameBuffer.sampleColorBufferState EglCurrent.unbound
      PostEnv.sample 1⟩

/-- C20: for every registry state without a subwindow and every handle `h`
that is a key of the colorbuffer table, `post(h)` returns false, issues no
collaborator call (no native bind, no swap), leaves the native binding
unchanged, and changes nothing in the registry except the last-posted handle,
which becomes `h`; in particular the three tables are unchanged. -/
theorem C20_post_without_subwindow (fb : FrameBuffer) (cur : EglCurrent) (env : PostEnv)
    (h : HandleType) (hsub : fb.m_subWin = none)
    (hkey : (HandleMap.find h fb.m_colorbuffers).isSome) :
    fb.post cur env h = (false, { fb with m_lastPostedColorBuffer := h }, cur, []) ∧
      (fb.post cur env h).2.1.m_contexts = fb.m_contexts ∧
      (fb.post cur env h).2.1.m_windows = fb.m_windows ∧
      (fb.post cur env h).2.1.m_colorbuffers = fb.m_colorbuffers := by
  obtain ⟨c, hc⟩ := Option.isSome_iff_exists.mp hkey
  have hp : fb.post cur env h = (false, { fb with m_lastPostedColorBuffer := h }, cur, []) := by
    simp [FrameBuffer.post, hc, hsub]
  rw [hp]
  exact ⟨rfl, rfl, rfl, rfl⟩

/-- C20 (witness): `post(1)` on the registry holding colorbuffer 1 and no
subwindow. -/
theorem C20_post_without_subwindow_witness :
    FrameBuffer.sampleColorBufferState.m_subWin = none ∧
    (HandleMap.find 1 FrameBuffer.sampleColorBufferState.m_colorbuffers).isSome ∧
    (FrameBuffer.sampleColorBufferState.post EglCurrent.unbound PostEnv.sample 1 =
        (false, { FrameBuffer.sampleColorBufferState with m_lastPostedColorBuffer := 1 },
          EglCurrent.unbound, []) ∧
      (FrameBuffer.sampleColorBufferState.post EglCurrent.unbound PostEnv.sample 1).2.1.m_contexts =
        FrameBuffer.sampleColorBufferState.m_contexts ∧
      (FrameBuffer.sampleColorBufferState.post EglCurrent.unbound PostEnv.sample 1).2.1.m_windows =
        FrameBuffer.sampleColorBufferState.m_windows ∧
      (FrameBuffer.sampleColorBufferState.post EglCurrent.unbound PostEnv.sample
          1).2.1.m_colorbuffers = FrameBuffer.sampleColorBufferState.m_colorbuffers) :=
  ⟨by decide, by decide,
    C20_post_without_subwindow FrameBuffer.sampleColorBufferState EglCurrent.unbound
      PostEnv.sample 1 (by decide) (by decide)⟩

/-! ## Share handle of createRenderContext -/

/-- C21: for every registry state and every non-zero share handle that is not
a key of the context table, `createRenderContext` returns 0 and leaves the
whole registry unchanged: the handle counter and the context, surface and
colorbuffer tables are as before, whatever `RenderContext::create` would have
returned. -/
theorem C21_createRenderContext_unknown_share (fb : FrameBuffer) (p_share : HandleType)
    (rctx : Option RenderContext) (hnz : p_share ≠ 0)
    (hbad : HandleMap.find p_share fb.m_contexts = none) :
    fb.createRenderContext p_share rctx = some (0, fb) := by
  unfold FrameBuffer.createRenderContext
  rw [if_pos ⟨hnz, by simp [hbad]⟩]

/-- C21 (witness): share handle 9 on the sample registry, whose only context
is handle 1. -/
theorem C21_createRenderContext_unknown_share_witness :
    (9 : HandleType) ≠ 0 ∧ HandleMap.find 9 FrameBuffer.sampleBindState.m_contexts = none ∧
    FrameBuffer.sampleBindState.createRenderContext 9 (some ⟨110, 210, true, 310⟩) =
      some (0, FrameBuffer.sampleBindState) :=
  ⟨by decide, by decide,
    C21_createRenderContext_unknown_share FrameBuffer.sampleBindState 9
      (some ⟨110, 210, true, 310⟩) (by decide) (by decide)⟩

/-! ## Symmetry of rangeIntersection -/

/-- C30: for all ranges `a`, `b` and every initial value of the output range,
`a.rangeIntersection(b, out)` and `b.rangeIntersection(a, out)` return the
same flag and leave `out` with the same value; when the flag is false, `out`
is unchanged. -/
theorem C30_rangeIntersection_symmetric (a b out : Range) :
    a.rangeIntersection b out = b.rangeIntersection a out ∧
      ((a.rangeIntersection b out).1 = false → (a.rangeIntersection b out).2 = out) := by
  constructor
  · rw [Range.rangeIntersection_eq a b out, Range.rangeIntersection_eq b a out,
      max_comm b.first a.first, min_comm b.second a.second]
    by_cases h : a.first ≤ b.second ∧ b.first ≤ a.second ∧
        max a.first b.first ≠ min a.second b.second
    · rw [if_pos h, if_pos ⟨h.2.1, h.1, h.2.2⟩]
    · rw [if_neg h, if_neg (fun h2 => h ⟨h2.2.1, h2.1, h2.2.2⟩)]
  · intro hf
    have h0 : (a.rangeIntersection b ⟨0, 0⟩).1 = false := by
      rw [← Range.rangeIntersection_flag a b out]; exact hf
    rw [Range.rangeIntersection_unchanged a b out h0]

/-! ## bindContext: successful binds, partial binds, destroyed contexts -/

theorem FrameBuffer.bindContextLookup_none (fb : FrameBuffer) (c d r : HandleType)
    (hnz : c ≠ 0 ∨ d ≠ 0 ∨ r ≠ 0)
    (hbad : HandleMap.find c fb.m_contexts = none ∨ HandleMap.find d fb.m_windows = none ∨
      (r ≠ d ∧ HandleMap.find r fb.m_windows = none)) :
    fb.bindContextLookup c d r = none := by
  unfold FrameBuffer.bindContextLookup
  rw [if_pos hnz]
  rcases hbad with h | h | ⟨h1, h2⟩
  · simp [h]
  · cases hc : HandleMap.find c fb.m_contexts <;> simp [h]
  · cases hc : HandleMap.find c fb.m_contexts <;>
      cases hd : HandleMap.find d fb.m_windows <;> simp [h1, h2]

theorem FrameBuffer.bindContext_of_lookup_none (fb : FrameBuffer) (tinfo : RenderThreadInfo)
    (egl : Bool) (c d r : HandleType) (h : fb.bindContextLookup c d r = none) :
    fb.bindContext tinfo egl c d r = (false, fb, tinfo, []) := by
  simp [FrameBuffer.bindContext, h]

/-- C23: in every registry state reached from the empty registry, for every
triple `(c, d, r)` with `c` in the context table and `d`, `r` in the surface
table, if the native make-current succeeds then `bindContext(c, d, r)` returns
true, leaves the registry (all tables) unchanged, and the calling thread's
binding triple becomes the context the table maps `c` to, the surface mapped
to `d` and the surface mapped to `r`; when `r = d` the read surface is the
draw surface. The calls issued are the native make-current on these objects
followed by the surface binds. -/
theorem C23_bind_records_triple (calls : List RegistryCall) (fb : FrameBuffer)
    (tinfo : RenderThreadInfo) (c d r : HandleType) (ctx : RenderContext)
    (draw read : WindowSurface)
    (hreach : FrameBuffer.empty.run calls = some fb)
    (hc : HandleMap.find c fb.m_contexts = some ctx)
    (hd : HandleMap.find d fb.m_windows = some draw)
    (hr : HandleMap.find r fb.m_windows = some read) :
    (fb.bindContext tinfo true c d r).1 = true ∧
      (fb.bindContext tinfo true c d r).2.1 = fb ∧
      (fb.bindContext tinfo true c d r).2.2.1.currContext = some ctx ∧
      (fb.bindContext tinfo true c d r).2.2.1.currDrawSurf = some draw ∧
      (fb.bindContext tinfo true c d r).2.2.1.currReadSurf = some read ∧
      (r = d → read = draw) ∧
      (fb.bindContext tinfo true c d r).2.2.2 =
        DriverCall.eglMakeCurrent (some draw.eglSurface) (some read.eglSurface)
            (some ctx.eglContext) ::
          FrameBuffer.bindSurfaces (some ctx) (some draw) (some read) := by
  have hinv : fb.HandlesDisjoint :=
    FrameBuffer.HandlesDisjoint_run calls FrameBuffer.empty fb
      ⟨fun h => by simp [FrameBuffer.empty, HandleMap.find], rfl, rfl⟩ hreach
  have hc0 : c ≠ 0 := by
    intro h0
    rw [h0, hinv.2.1] at hc
    cases hc
  have hl := FrameBuffer.bindContextLookup_valid fb c d r ctx draw read (Or.inl hc0) hc hd hr
  have hrd : r = d → read = draw := by
    intro h
    rw [h, hd] at hr
    cases hr
    rfl
  refine ⟨?_, ?_, ?_, ?_, ?_, hrd, ?_⟩ <;>
    cases hg : ctx.isGL2 <;> simp [FrameBuffer.bindContext, hl, hg]

/-- C23 (witness): `bindContext(1, 2, 3)` on the registry reached by creating
a context and two surfaces. -/
theorem C23_bind_records_triple_witness :
    FrameBuffer.empty.run FrameBuffer.sampleBindCalls = some FrameBuffer.sampleBindState ∧
    HandleMap.find 1 FrameBuffer.sampleBindState.m_contexts = some ⟨100, 200, false, 300⟩ ∧
    HandleMap.find 2 FrameBuffer.sampleBindState.m_windows = some ⟨101, 201⟩ ∧
    HandleMap.find 3 FrameBuffer.sampleBindState.m_windows = some ⟨102, 202⟩ ∧
    ((FrameBuffer.sampleBindState.bindContext RenderThreadInfo.unbound true 1 2 3).1 = true ∧
      (FrameBuffer.sampleBindState.bindContext RenderThreadInfo.unbound true 1 2 3).2.1 =
        FrameBuffer.sampleBindState ∧
      (FrameBuffer.sampleBindState.bindContext RenderThreadInfo.unbound true 1 2
          3).2.2.1.currContext = some ⟨100, 200, false, 300⟩ ∧
      (FrameBuffer.sampleBindState.bindContext RenderThreadInfo.unbound true 1 2
          3).2.2.1.currDrawSurf = some ⟨101, 201⟩ ∧
      (FrameBuffer.sampleBindState.bindContext RenderThreadInfo.unbound true 1 2
          3).2.2.1.currReadSurf = some ⟨102, 202⟩ ∧
      ((3 : HandleType) = 2 → (⟨102, 202⟩ : WindowSurface) = ⟨101, 201⟩) ∧
      (FrameBuffer.sampleBindState.bindContext RenderThreadInfo.unbound true 1 2 3).2.2.2 =
        DriverCall.eglMakeCurrent (some (⟨101, 201⟩ : WindowSurface).eglSurface)
            (some (⟨102, 202⟩ : WindowSurface).eglSurface)
            (some (⟨100, 200, false, 300⟩ : RenderContext).eglContext) ::
          FrameBuffer.bindSurfaces (some ⟨100, 200, false, 300⟩) (some ⟨101, 201⟩)
            (some ⟨102, 202⟩)) :=
  ⟨by decide, by decide, by decide, by decide,
    C23_bind_records_triple FrameBuffer.sampleBindCalls FrameBuffer.sampleBindState
      RenderThreadInfo.unbound 1 2 3 ⟨100, 200, false, 300⟩ ⟨101, 201⟩ ⟨102, 202⟩
      (by decide) (by decide) (by decide) (by decide)⟩

/-- C28: in every registry state reached from the empty registry, a
`bindContext(c, d, r)` call in which at least one handle is non-zero and at
least one is zero returns false, issues no collaborator call, and leaves the
registry and the calling thread's state unchanged. -/
theorem C28_partial_bind_rejected (calls : List RegistryCall) (fb : FrameBuffer)
    (tinfo : RenderThreadInfo) (egl : Bool) (c d r : HandleType)
    (hreach : FrameBuffer.empty.run calls = some fb)
    (hnz : c ≠ 0 ∨ d ≠ 0 ∨ r ≠ 0) (hz : c = 0 ∨ d = 0 ∨ r = 0) :
    fb.bindContext tinfo egl c d r = (false, fb, tinfo, []) := by
  have hinv : fb.HandlesDisjoint :=
    FrameBuffer.HandlesDisjoint_run calls FrameBuffer.empty fb
      ⟨fun h => by simp [FrameBuffer.empty, HandleMap.find], rfl, rfl⟩ hreach
  apply FrameBuffer.bindContext_of_lookup_none
  apply FrameBuffer.bindContextLookup_none fb c d r hnz
  rcases hz with h | h | h
  · exact Or.inl (h ▸ hinv.2.1)
  · exact Or.inr (Or.inl (h ▸ hinv.2.2))
  · by_cases hrd : r = d
    · exact Or.inr (Or.inl (hrd ▸ h ▸ hinv.2.2))
    · exact Or.inr (Or.inr ⟨hrd, h ▸ hinv.2.2⟩)

/-- C28 (witness): binding context 1 with draw surface 2 and no read surface
on the sample registry. -/
theorem C28_partial_bind_rejected_witness :
    FrameBuffer.empty.run FrameBuffer.sampleBindCalls = some FrameBuffer.sampleBindState ∧
    ((1 : HandleType) ≠ 0 ∨ (2 : HandleType) ≠ 0 ∨ (0 : HandleType) ≠ 0) ∧
    ((1 : HandleType) = 0 ∨ (2 : HandleType) = 0 ∨ (0 : HandleType) = 0) ∧
    FrameBuffer.sampleBindState.bindContext RenderThreadInfo.unbound true 1 2 0 =
      (false, FrameBuffer.sampleBindState, RenderThreadInfo.unbound, []) :=
  ⟨by decide, by decide, by decide,
    C28_partial_bind_rejected FrameBuffer.sampleBindCalls FrameBuffer.sampleBindState
      RenderThreadInfo.unbound true 1 2 0 (by decide) (by decide) (by decide)⟩

theorem HandleMap.erase_of_find_none {α : Type} (k : HandleType) (m : HandleMap α)
    (h : HandleMap.find k m = none) : HandleMap.erase k m = m := by
  induction m with
  | nil => rfl
  | cons e m ih =>
    unfold HandleMap.find at h
    by_cases hk : k = e.1
    · simp [hk] at h
    · rw [if_neg hk] at h
      unfold HandleMap.erase
      rw [if_neg (fun he => hk he.symm), ih h]

/-- C29 (counterexample): on the empty registry, after
`DestroyRenderContext(0)` the call `bindContext(0, 0, 0)` is an unbind and
returns true when the native make-current succeeds. -/
theorem C29_bind_after_destroy_counterexample :
    ((FrameBuffer.empty.DestroyRenderContext 0).bindContext RenderThreadInfo.unbound true
      0 0 0).1 = true := by
  decide

/-- C29 (amended): `DestroyRenderContext(h)` removes exactly the key `h` from
the context table (the registry is unchanged when `h` is absent) and leaves
the surface table, the colorbuffer table, the last-posted handle and the
handle counter unchanged; `DestroyWindowSurface(h)` does the same on the
surface table. After `DestroyRenderContext(h)`, `bindContext(h, d, r)` returns
false and changes nothing for all `d`, `r`, except for the all-zero triple,
which is the unbind. -/
theorem C29_destroy_frame (fb : FrameBuffer) (h : HandleType) :
    ((∀ j : HandleType, HandleMap.find j (fb.DestroyRenderContext h).m_contexts =
          if j = h then none else HandleMap.find j fb.m_contexts) ∧
        (HandleMap.find h fb.m_contexts = none → fb.DestroyRenderContext h = fb) ∧
        (fb.DestroyRenderContext h).m_windows = fb.m_windows ∧
        (fb.DestroyRenderContext h).m_colorbuffers = fb.m_colorbuffers ∧
        (fb.DestroyRenderContext h).m_lastPostedColorBuffer = fb.m_lastPostedColorBuffer ∧
        (fb.DestroyRenderContext h).s_nextHandle = fb.s_nextHandle) ∧
      ((∀ j : HandleType, HandleMap.find j (fb.DestroyWindowSurface h).m_windows =
          if j = h then none else HandleMap.find j fb.m_windows) ∧
        (HandleMap.find h fb.m_windows = none → fb.DestroyWindowSurface h = fb) ∧
        (fb.DestroyWindowSurface h).m_contexts = fb.m_contexts ∧
        (fb.DestroyWindowSurface h).m_colorbuffers = fb.m_colorbuffers ∧
        (fb.DestroyWindowSurface h).m_lastPostedColorBuffer = fb.m_lastPostedColorBuffer ∧
        (fb.DestroyWindowSurface h).s_nextHandle = fb.s_nextHandle) ∧
      (∀ (tinfo : RenderThreadInfo) (egl : Bool) (d r : HandleType),
        (h ≠ 0 ∨ d ≠ 0 ∨ r ≠ 0) →
        (fb.DestroyRenderContext h).bindContext tinfo egl h d r =
          (false, fb.DestroyRenderContext h, tinfo, [])) := by
  refine ⟨⟨fun j => ?_, fun hn => ?_, rfl, rfl, rfl, rfl⟩,
    ⟨fun j => ?_, fun hn => ?_, rfl, rfl, rfl, rfl⟩, fun tinfo egl d r hnz => ?_⟩
  · simp only [FrameBuffer.DestroyRenderContext, HandleMap.find_erase]
  · unfold FrameBuffer.DestroyRenderContext
    rw [HandleMap.erase_of_find_none h fb.m_contexts hn]
  · simp only [FrameBuffer.DestroyWindowSurface, HandleMap.find_erase]
  · unfold FrameBuffer.DestroyWindowSurface
    rw [HandleMap.erase_of_find_none h fb.m_windows hn]
  · apply FrameBuffer.bindContext_of_lookup_none
    apply FrameBuffer.bindContextLookup_none _ h d r hnz
    exact Or.inl (by simp [FrameBuffer.DestroyRenderContext, HandleMap.find_erase])

/-- C29 (witness): destroying context 1 of the sample registry and binding it
afterwards. -/
theorem C29_destroy_frame_witness :
    HandleMap.find 1 (FrameBuffer.sampleBindState.DestroyRenderContext 1).m_contexts = none ∧
    (FrameBuffer.sampleBindState.DestroyRenderContext 1).bindContext RenderThreadInfo.unbound
        true 1 2 3 =
      (false, FrameBuffer.sampleBindState.DestroyRenderContext 1, RenderThreadInfo.unbound,
        []) :=
  ⟨by decide,
    (C29_destroy_frame FrameBuffer.sampleBindState 1).2.2 RenderThreadInfo.unbound true 2 3
      (by decide)⟩

/-! ## Present pipeline: saving and restoring the native binding -/

/-- C25: a successful `bindSubwin_locked` (or `bind_locked`) followed by a
successful `unbind_locked` leaves the native context, draw surface and read
surface as they were and resets the saved previous-binding fields to none; a
`post(h)` that reaches the drawable (known handle, subwindow present, bind
succeeds) and whose restore succeeds ends with the native binding it started
with; a failing `bind_locked` or `bindSubwin_locked` leaves the registry, the
saved previous-binding fields included, and the native binding unchanged. -/
theorem C25_present_restores_binding (fb : FrameBuffer) (cur : EglCurrent) :
    (((fb.bindSubwin_locked cur true).1 = true ∧
        ((fb.bindSubwin_locked cur true).2.1.unbind_locked
          (fb.bindSubwin_locked cur true).2.2.1 true).1 = true ∧
        ((fb.bindSubwin_locked cur true).2.1.unbind_locked
          (fb.bindSubwin_locked cur true).2.2.1 true).2.2.1 = cur ∧
        ((fb.bindSubwin_locked cur true).2.1.unbind_locked
          (fb.bindSubwin_locked cur true).2.2.1 true).2.1 =
            { fb with m_eglContextInitialized := true, m_prevContext := none,
                      m_prevReadSurf := none, m_prevDrawSurf := none }) ∧
      ((fb.bind_locked cur true).1 = true ∧
        ((fb.bind_locked cur true).2.1.unbind_locked (fb.bind_locked cur true).2.2.1 true).1 =
          true ∧
        ((fb.bind_locked cur true).2.1.unbind_locked (fb.bind_locked cur true).2.2.1
          true).2.2.1 = cur ∧
        ((fb.bind_locked cur true).2.1.unbind_locked (fb.bind_locked cur true).2.2.1
          true).2.1 =
            { fb with m_prevContext := none, m_prevReadSurf := none,
                      m_prevDrawSurf := none })) ∧
      (∀ (env : PostEnv) (h : HandleType),
        (HandleMap.find h fb.m_colorbuffers).isSome → fb.m_subWin.isSome →
        env.bindOk = true → env.unbindOk = true →
        (fb.post cur env h).2.2.1 = cur ∧
          (fb.post cur env h).2.1.m_prevContext = none ∧
          (fb.post cur env h).2.1.m_prevReadSurf = none ∧
          (fb.post cur env h).2.1.m_prevDrawSurf = none) ∧
      (fb.bindSubwin_locked cur false = (false, fb, cur,
          PresentCall.snapshot ++
            [PresentCall.eglMakeCurrent fb.m_eglSurface fb.m_eglSurface fb.m_eglContext]) ∧
        fb.bind_locked cur false = (false, fb, cur,
          PresentCall.snapshot ++
            [PresentCall.eglMakeCurrent fb.m_pbufSurface fb.m_pbufSurface fb.m_pbufContext])) := by
  refine ⟨⟨?_, ?_⟩, fun env h hkey hsub hb hu => ?_, ?_⟩
  · simp [FrameBuffer.bindSubwin_locked, FrameBuffer.unbind_locked, EglCurrent.eglMakeCurrent]
  · simp [FrameBuffer.bind_locked, FrameBuffer.unbind_locked, EglCurrent.eglMakeCurrent]
  · obtain ⟨c, hc⟩ := Option.isSome_iff_exists.mp hkey
    obtain ⟨s, hs⟩ := Option.isSome_iff_exists.mp hsub
    simp [FrameBuffer.post, hc, hs, hb, hu, FrameBuffer.bindSubwin_locked,
      FrameBuffer.unbind_locked, EglCurrent.eglMakeCurrent]
  · simp [FrameBuffer.bindSubwin_locked, FrameBuffer.bind_locked, EglCurrent.eglMakeCurrent]

/-- C25 (witness): `post(1)` on a registry with a subwindow, entered with
context 1, draw surface 2 and read surface 3 current. -/
theorem C25_present_restores_binding_witness :
    (HandleMap.find 1 FrameBuffer.samplePresentState.m_colorbuffers).isSome ∧
    FrameBuffer.samplePresentState.m_subWin.isSome ∧
    (FrameBuffer.samplePresentState.post EglCurrent.sample PostEnv.sample 1).1 = true ∧
    ((FrameBuffer.samplePresentState.post EglCurrent.sample PostEnv.sample 1).2.2.1 =
        EglCurrent.sample ∧
      (FrameBuffer.samplePresentState.post EglCurrent.sample PostEnv.sample
        1).2.1.m_prevContext = none ∧
      (FrameBuffer.samplePresentState.post EglCurrent.sample PostEnv.sample
        1).2.1.m_prevReadSurf = none ∧
      (FrameBuffer.samplePresentState.post EglCurrent.sample PostEnv.sample
        1).2.1.m_prevDrawSurf = none) :=
  ⟨by decide, by decide, by decide,
    (C25_present_restores_binding FrameBuffer.samplePresentState EglCurrent.sample).2.1
      PostEnv.sample 1 (by decide) (by decide) (by decide) (by decide)⟩

/-! ## Context teardown: order of the driver actions -/

/-- C24: in every run of the `EglContext` destructor with a non-null name
manager, the calls issued are, in order: the three reads of the current native
context and surfaces; then only calls that obtain the fallback surface and
try to make it current on this context (the make-current being issued exactly
when a surface object was obtained); then `destroyShareGroup` with the
callback, `deleteShareGroup`, the restoring make-current on the snapshot
values, `destroyContext` on the native context and `deleteGLESContext`. The
share-group calls are issued whatever the fallback calls answered. -/
theorem C24_teardown_order (self : EglContext) (g_fakeSurface : Option Nat) (cur : EglCurrent)
    (env : TeardownEnv) (m : Nat) (hm : self.m_mngr = some m) :
    ∃ fallback : List TeardownCall,
      (self.destructor g_fakeSurface cur env).2.2 =
        [TeardownCall.eglGetCurrentContext, TeardownCall.eglGetCurrentSurfaceRead,
          TeardownCall.eglGetCurrentSurfaceDraw] ++ fallback ++
        [TeardownCall.destroyShareGroup self.m_native self.m_version,
          TeardownCall.deleteShareGroup self.m_native,
          TeardownCall.eglMakeCurrent cur.read cur.draw cur.context,
          TeardownCall.destroyContext self.m_native,
          TeardownCall.deleteGLESContext self.m_glesContext] ∧
      (∀ x ∈ fallback,
        x = TeardownCall.eglChooseConfig self.m_version ∨
        x = TeardownCall.eglCreatePbufferSurface ∨
        (∃ s, x = TeardownCall.getSurface s) ∨
        (∃ p, x = TeardownCall.osMakeCurrent p p self.m_native)) ∧
      (∀ p, env.surfPtr = some p →
        TeardownCall.osMakeCurrent p p self.m_native ∈ fallback) ∧
      (env.surfPtr = none → ∀ a b c, TeardownCall.osMakeCurrent a b c ∉ fallback) := by
  cases hg : g_fakeSurface <;> cases hs : env.surfPtr
  · refine ⟨[TeardownCall.eglChooseConfig self.m_version, TeardownCall.eglCreatePbufferSurface,
      TeardownCall.getSurface env.createdSurface], ?_, ?_, ?_, ?_⟩
    · simp [EglContext.destructor, hm, hs]
    · intro x hx; simp at hx; aesop
    · intro p hp; cases hp
    · intro _ a b c; simp
  · rename_i p
    refine ⟨[TeardownCall.eglChooseConfig self.m_version, TeardownCall.eglCreatePbufferSurface,
      TeardownCall.getSurface env.createdSurface,
      TeardownCall.osMakeCurrent p p self.m_native], ?_, ?_, ?_, ?_⟩
    · simp [EglContext.destructor, hm, hs]
    · intro x hx; simp at hx; aesop
    · intro q hq; cases hq; simp
    · intro h; cases h
  · rename_i s
    refine ⟨[TeardownCall.getSurface (some s)], ?_, ?_, ?_, ?_⟩
    · simp [EglContext.destructor, hm, hs]
    · intro x hx; simp at hx; aesop
    · intro p hp; cases hp
    · intro _ a b c; simp
  · rename_i s p
    refine ⟨[TeardownCall.getSurface (some s), TeardownCall.osMakeCurrent p p self.m_native],
      ?_, ?_, ?_, ?_⟩
    · simp [EglContext.destructor, hm, hs]
    · intro x hx; simp at hx; aesop
    · intro q hq; cases hq; simp
    · intro h; cases h

/-- C24 (witness): the sample context destroyed while no fallback surface
exists yet and none can be obtained. -/
theorem C24_teardown_order_witness :
    EglContext.sample.m_mngr = some 40 ∧
    (EglContext.sample.destructor none EglCurrent.sample ⟨none, none, false, false⟩).2.2 =
      [TeardownCall.eglGetCurrentContext, TeardownCall.eglGetCurrentSurfaceRead,
        TeardownCall.eglGetCurrentSurfaceDraw, TeardownCall.eglChooseConfig GLESVersion.GLES_2_0,
        TeardownCall.eglCreatePbufferSurface, TeardownCall.getSurface none,
        TeardownCall.destroyShareGroup 20 GLESVersion.GLES_2_0, TeardownCall.deleteShareGroup 20,
        TeardownCall.eglMakeCurrent (some 3) (some 2) (some 1), TeardownCall.destroyContext 20,
        TeardownCall.deleteGLESContext 30] ∧
    ∃ fallback : List TeardownCall,
      (EglContext.sample.destructor none EglCurrent.sample ⟨none, none, false, false⟩).2.2 =
        [TeardownCall.eglGetCurrentContext, TeardownCall.eglGetCurrentSurfaceRead,
          TeardownCall.eglGetCurrentSurfaceDraw] ++ fallback ++
        [TeardownCall.destroyShareGroup EglContext.sample.m_native EglContext.sample.m_version,
          TeardownCall.deleteShareGroup EglContext.sample.m_native,
          TeardownCall.eglMakeCurrent EglCurrent.sample.read EglCurrent.sample.draw
            EglCurrent.sample.context,
          TeardownCall.destroyContext EglContext.sample.m_native,
          TeardownCall.deleteGLESContext EglContext.sample.m_glesContext] ∧
      (∀ x ∈ fallback,
        x = TeardownCall.eglChooseConfig EglContext.sample.m_version ∨
        x = TeardownCall.eglCreatePbufferSurface ∨
        (∃ s, x = TeardownCall.getSurface s) ∨
        (∃ p, x = TeardownCall.osMakeCurrent p p EglContext.sample.m_native)) ∧
      (∀ p, (⟨none, none, false, false⟩ : TeardownEnv).surfPtr = some p →
        TeardownCall.osMakeCurrent p p EglContext.sample.m_native ∈ fallback) ∧
      ((⟨none, none, false, false⟩ : TeardownEnv).surfPtr = none →
        ∀ a b c, TeardownCall.osMakeCurrent a b c ∉ fallback) :=
  ⟨by decide, by decide,
    C24_teardown_order EglContext.sample none EglCurrent.sample ⟨none, none, false, false⟩ 40
      (by decide)⟩

/-! ## Bad handles -/

/-- C22: for every registry state and every handle that is not a key of the
relevant table, `openColorBuffer` and `closeColorBuffer` return the registry
unchanged; `updateColorBuffer`, `bindColorBufferToTexture`,
`bindColorBufferToRenderbuffer` and `flushWindowSurfaceColorBuffer` return
false, leave the registry unchanged and issue no call on any object;
`setWindowSurfaceColorBuffer` returns false and leaves the attachments
unchanged when its surface handle or its colorbuffer handle is unknown.
Conversely `updateColorBuffer` returns false only for an unknown handle. -/
theorem C22_bad_handles (fb : FrameBuffer) (attached : HandleMap ColorBuffer)
    (h k : HandleType) (answer : Bool) :
    (HandleMap.find h fb.m_colorbuffers = none →
        fb.openColorBuffer h = fb ∧ fb.closeColorBuffer h = fb ∧
        fb.updateColorBuffer h = (false, fb, []) ∧
        fb.bindColorBufferToTexture answer h = (false, fb, []) ∧
        fb.bindColorBufferToRenderbuffer answer h = (false, fb, [])) ∧
      (HandleMap.find h fb.m_windows = none →
        fb.flushWindowSurfaceColorBuffer h = (false, fb, [])) ∧
      (HandleMap.find h fb.m_windows = none ∨ HandleMap.find k fb.m_colorbuffers = none →
        fb.setWindowSurfaceColorBuffer attached h k = (false, attached)) ∧
      ((fb.updateColorBuffer h).1 = false ↔ HandleMap.find h fb.m_colorbuffers = none) := by
  refine ⟨fun hn => ?_, fun hn => ?_, fun hn => ?_, ?_⟩
  · simp [FrameBuffer.openColorBuffer, FrameBuffer.closeColorBuffer,
      FrameBuffer.updateColorBuffer, FrameBuffer.bindColorBufferToTexture,
      FrameBuffer.bindColorBufferToRenderbuffer, hn]
  · simp [FrameBuffer.flushWindowSurfaceColorBuffer, hn]
  · unfold FrameBuffer.setWindowSurfaceColorBuffer
    rcases hn with hn | hn
    · simp [hn]
    · cases hw : HandleMap.find h fb.m_windows <;> simp [hn]
  · unfold FrameBuffer.updateColorBuffer
    cases hc : HandleMap.find h fb.m_colorbuffers <;> simp

/-- C22 (witness): the handle 9, unknown to the sample registry, against a
surface that has colorbuffer object 64 attached. -/
theorem C22_bad_handles_witness :
    HandleMap.find 9 FrameBuffer.sampleBindState.m_colorbuffers = none ∧
    HandleMap.find 9 FrameBuffer.sampleBindState.m_windows = none ∧
    FrameBuffer.sampleBindState.closeColorBuffer 9 = FrameBuffer.sampleBindState ∧
    FrameBuffer.sampleBindState.setWindowSurfaceColorBuffer [(101, ⟨64⟩)] 2 9 =
      (false, [(101, ⟨64⟩)]) ∧
    (FrameBuffer.sampleBindState.updateColorBuffer 9).1 = false :=
  ⟨by decide, by decide,
    ((C22_bad_handles FrameBuffer.sampleBindState [(101, ⟨64⟩)] 9 9 true).1 (by decide)).2.1,
    (C22_bad_handles FrameBuffer.sampleBindState [(101, ⟨64⟩)] 2 9 true).2.2.1
      (Or.inr (by decide)),
    ((C22_bad_handles FrameBuffer.sampleBindState [(101, ⟨64⟩)] 9 9 true).2.2.2).2
      (by decide)⟩

/-! ## genHandle: termination and first free value -/

theorem FrameBuffer.genHandleLoop_first (fb : FrameBuffer) (fuel : Nat) :
    ∀ (n k : Nat), 1 ≤ k → k ≤ fuel → fb.handleFree ((n + k) % 4294967296) →
      (∀ j : Nat, 1 ≤ j → j < k → ¬ fb.handleFree ((n + j) % 4294967296)) →
      FrameBuffer.genHandleLoop fb.m_contexts fb.m_windows fuel n =
        some ((n + k) % 4294967296) := by
  induction fuel with
  | zero => intro n k h1 h2; omega
  | succ fuel ih =>
    intro n k h1 h2 hfree hfirst
    rw [FrameBuffer.genHandleLoop]
    have hM : (2 : Nat) ^ 32 = 4294967296 := by norm_num
    simp only [hM]
    by_cases hk : k = 1
    · subst hk
      unfold FrameBuffer.handleFree at hfree
      rw [if_neg hfree]
    · have hnot := hfirst 1 (le_refl 1) (by omega)
      unfold FrameBuffer.handleFree at hnot
      rw [if_pos (not_not.mp hnot)]
      have hmod : ∀ j : Nat, ((n + 1) % 4294967296 + j) % 4294967296 =
          (n + (j + 1)) % 4294967296 := by
        intro j; omega
      have := ih ((n + 1) % 4294967296) (k - 1) (by omega) (by omega)
        (by rw [hmod, show k - 1 + 1 = k from by omega]; exact hfree)
        (fun j hj1 hj2 => by rw [hmod]; exact hfirst (j + 1) (by omega) (by omega))
      rw [this, hmod, show k - 1 + 1 = k from by omega]

/-- C26: for every registry state in which some non-zero 32-bit value is a key
of neither the context table nor the surface table, `genHandle` returns: its
result is the first value after the counter, counting upward modulo `2 ^ 32`,
that is non-zero and absent from both tables, and the counter is left equal to
the returned value (nothing else in the registry changes). -/
theorem C26_genHandle_first_free (fb : FrameBuffer) (v : Nat) (hv : v < 2 ^ 32)
    (hfree : fb.handleFree v) :
    ∃ k : Nat, 1 ≤ k ∧ k ≤ 2 ^ 32 ∧
      fb.genHandle = some ((fb.s_nextHandle + k) % 2 ^ 32,
        { fb with s_nextHandle := (fb.s_nextHandle + k) % 2 ^ 32 }) ∧
      fb.handleFree ((fb.s_nextHandle + k) % 2 ^ 32) ∧
      ∀ j : Nat, 1 ≤ j → j < k → ¬ fb.handleFree ((fb.s_nextHandle + j) % 2 ^ 32) := by
  have hM : (2 : Nat) ^ 32 = 4294967296 := by norm_num
  rw [hM] at hv
  simp only [hM]
  obtain ⟨n, hn⟩ : ∃ n : Nat, fb.s_nextHandle = n := ⟨_, rfl⟩
  rw [hn]
  have hex : ∃ k : Nat, 1 ≤ k ∧ k ≤ 4294967296 ∧ fb.handleFree ((n + k) % 4294967296) := by
    refine ⟨(v + 4294967296 - 1 - n % 4294967296) % 4294967296 + 1, by omega, by omega, ?_⟩
    have : (n + ((v + 4294967296 - 1 - n % 4294967296) % 4294967296 + 1)) % 4294967296 = v := by
      omega
    rw [this]; exact hfree
  classical
  let P : Nat → Prop := fun k => 1 ≤ k ∧ k ≤ 4294967296 ∧ fb.handleFree ((n + k) % 4294967296)
  have hP : ∃ k, P k := hex
  obtain ⟨h1, h2, h3⟩ := Nat.find_spec hP
  have hmin : ∀ j : Nat, 1 ≤ j → j < Nat.find hP → ¬ fb.handleFree ((n + j) % 4294967296) := by
    intro j hj1 hj2 hf
    exact Nat.find_min hP hj2 ⟨hj1, by omega, hf⟩
  refine ⟨Nat.find hP, h1, h2, ?_, h3, hmin⟩
  have hloop := FrameBuffer.genHandleLoop_first fb 4294967296 n (Nat.find hP) h1 h2 h3 hmin
  unfold FrameBuffer.genHandle
  rw [hn, hM, hloop]

/-- C26 (witness): on the sample registry (context 1, surfaces 2 and 3,
counter 3) the value 7 is free, and `genHandle` returns 4. -/
theorem C26_genHandle_first_free_witness :
    (7 : Nat) < 2 ^ 32 ∧ FrameBuffer.sampleBindState.handleFree 7 ∧
    FrameBuffer.sampleBindState.genHandle =
      some (4, { FrameBuffer.sampleBindState with s_nextHandle := 4 }) ∧
    ∃ k : Nat, 1 ≤ k ∧ k ≤ 2 ^ 32 ∧
      FrameBuffer.sampleBindState.genHandle =
        some ((FrameBuffer.sampleBindState.s_nextHandle + k) % 2 ^ 32,
          { FrameBuffer.sampleBindState with
            s_nextHandle := (FrameBuffer.sampleBindState.s_nextHandle + k) % 2 ^ 32 }) ∧
      FrameBuffer.sampleBindState.handleFree
        ((FrameBuffer.sampleBindState.s_nextHandle + k) % 2 ^ 32) ∧
      ∀ j : Nat, 1 ≤ j → j < k →
        ¬ FrameBuffer.sampleBindState.handleFree
          ((FrameBuffer.sampleBindState.s_nextHandle + j) % 2 ^ 32) :=
  ⟨by decide, by decide, by decide,
    C26_genHandle_first_free FrameBuffer.sampleBindState 7 (by decide) (by decide)⟩

/-! ## delRange on a list of disjoint positive ranges -/

/-- C27 (code at the failing input): the ranges of `{[0,10), [20,30), [40,50)}`
have positive size and pairwise share no integer point, and `[2,5)` has
non-negative size; the call `delRange([2,5), deleted)` has to split `[0,10)`,
executes `newList.insert(it, ...)` (RangeManip.cpp 68 and 73) with the loop
iterator of `*this` as the position hint of another container and has no
defined result: there is no remaining list of which the invariant could
hold. -/
theorem C27_delRange_invalid_hint :
    (∀ x ∈ ([⟨0, 10⟩, ⟨20, 30⟩, ⟨40, 50⟩] : RangeList), 0 < x.getSize) ∧
    (∀ x ∈ ([⟨0, 10⟩, ⟨20, 30⟩, ⟨40, 50⟩] : RangeList),
      ∀ y ∈ ([⟨0, 10⟩, ⟨20, 30⟩, ⟨40, 50⟩] : RangeList),
        x ≠ y → ∀ p : Int, ¬ (x.contains p ∧ y.contains p)) ∧
    0 ≤ (⟨2, 5⟩ : Range).getSize ∧
    ∀ deleted : RangeList,
      RangeList.delRange [⟨0, 10⟩, ⟨20, 30⟩, ⟨40, 50⟩] ⟨2, 5⟩ deleted = none := by
  refine ⟨by decide, ?_, by decide, ?_⟩
  · intro x hx y hy hxy p hp
    simp only [List.mem_cons, List.mem_singleton, List.not_mem_nil, or_false] at hx hy
    rcases hx with rfl | rfl | rfl <;> rcases hy with rfl | rfl | rfl <;>
      first
      | exact hxy rfl
      | (simp only [Range.contains] at hp; omega)
  · intro deleted
    rw [RangeList.delRange_eq_none_iff]
    exact ⟨by decide, ⟨0, 10⟩, by simp, by decide, by decide⟩
